import Mathlib

/-!
Verification of the poke-engine core against its specification.

The Rust sources under verification are `generate_instructions.rs`,
`evaluate.rs` and `search.rs`.  The crate files `state.rs`, `choices.rs`,
`abilities.rs`, `instruction.rs` and `damage_calc.rs` are not part of the
sources provided, so the data model (battle state, delta vocabulary,
apply/reverse semantics) and the ability/item/move hook tables are modelled
from the specification (sections 3, 4.1 and 4.3); every such definition is
marked `Modelled from the spec:` in its doc comment.  All probabilities and
scores are carried exactly as rationals; the Rust code carries them as `f32`
and allows a 1e-3 tolerance only to absorb float rounding, which the exact
embedding does not need.
-/

namespace PokeEngine

/-- Modelled from the spec: the two sides of the battle (`SideReference` in
`state.rs`). -/
inductive SideReference
| SideOne
| SideTwo
deriving DecidableEq

/-- Modelled from the spec: the opposing side. -/
def SideReference.get_other_side : SideReference → SideReference
| SideReference.SideOne => SideReference.SideTwo
| SideReference.SideTwo => SideReference.SideOne

/-- Modelled from the spec: the seven non-volatile status conditions. -/
inductive PokemonStatus
| None
| Burn
| Freeze
| Sleep
| Paralyze
| Poison
| Toxic
deriving DecidableEq

/-- Modelled from the spec: volatile statuses (subset sufficient for the
code under verification). -/
inductive PokemonVolatileStatus
| LeechSeed
| Substitute
| Confusion
| Taunt
| Flinch
| AquaRing
| Attract
deriving DecidableEq

instance : LinearOrder PokemonVolatileStatus :=
  LinearOrder.lift' (fun v => (match v with
    | PokemonVolatileStatus.LeechSeed => 0
    | PokemonVolatileStatus.Substitute => 1
    | PokemonVolatileStatus.Confusion => 2
    | PokemonVolatileStatus.Taunt => 3
    | PokemonVolatileStatus.Flinch => 4
    | PokemonVolatileStatus.AquaRing => 5
    | PokemonVolatileStatus.Attract => 6 : Nat))
    (by intro a b h; cases a <;> cases b <;> simp_all)

/-- Modelled from the spec: creature types. -/
inductive PokemonType
| Normal
| Fire
| Water
| Electric
| Grass
| Ice
| Fighting
| Poison
| Ground
| Flying
| Psychic
| Bug
| Rock
| Ghost
| Dragon
| Dark
| Steel
| Fairy
| Typeless
deriving DecidableEq

/-- Modelled from the spec: the seven boostable stats. -/
inductive PokemonBoostableStat
| Attack
| Defense
| SpecialAttack
| SpecialDefense
| Speed
| Accuracy
| Evasion
deriving DecidableEq

/-- Modelled from the spec: persistent per-side conditions. -/
inductive PokemonSideCondition
| Spikes
| ToxicSpikes
| Stealthrock
| StickyWeb
| AuroraVeil
| Reflect
| LightScreen
| Safeguard
| Tailwind
deriving DecidableEq

/-- Modelled from the spec: weather kinds. -/
inductive Weather
| None
| HarshSun
| Rain
| Sand
| Hail
deriving DecidableEq

/-- Modelled from the spec: terrain kinds. -/
inductive Terrain
| NoTerrain
| ElectricTerrain
| GrassyTerrain
| MistyTerrain
| PsychicTerrain
deriving DecidableEq

/-- Modelled from the spec: move categories; `Switch` is the category used
by the generator's switch short-circuit. -/
inductive MoveCategory
| Physical
| Special
| Status
| Switch
deriving DecidableEq

/-- Modelled from the spec: the target of a move effect. -/
inductive MoveTarget
| Opponent
| User
deriving DecidableEq

/-- Modelled from the spec: weather with its remaining turns. -/
structure WeatherState where
  weather_type : Weather
  turns_remaining : Int
deriving DecidableEq

/-- Modelled from the spec: terrain with its remaining turns. -/
structure TerrainState where
  terrain_type : Terrain
  turns_remaining : Int
deriving DecidableEq

/-- Modelled from the spec: one move slot of a creature
(`{id, pp, disabled}`, plus the category the evaluator reads through the
slot's cached choice data). -/
structure Move where
  id : String
  disabled : Bool
  pp : Int
  category : MoveCategory
deriving DecidableEq

/-- Modelled from the spec: a creature.  Stat-stage boosts are separate
integer fields as in `state.rs` usage (`attack_boost`, ...). -/
structure Pokemon where
  id : String
  level : Int
  types : PokemonType × PokemonType
  hp : Int
  maxhp : Int
  ability : String
  item : String
  attack : Int
  defense : Int
  special_attack : Int
  special_defense : Int
  speed : Int
  attack_boost : Int
  defense_boost : Int
  special_attack_boost : Int
  special_defense_boost : Int
  speed_boost : Int
  accuracy_boost : Int
  evasion_boost : Int
  status : PokemonStatus
  substitute_health : Int
  volatile_statuses : Finset PokemonVolatileStatus
  moves : List Move
deriving DecidableEq

/-- Modelled from the spec: whether the creature has the given type. -/
def Pokemon.has_type (p : Pokemon) (t : PokemonType) : Bool :=
  p.types.1 = t || p.types.2 = t

/-- Modelled from the spec: the per-side condition counters, one integer
field per condition. -/
structure SideConditions where
  spikes : Int
  toxic_spikes : Int
  stealth_rock : Int
  sticky_web : Int
  aurora_veil : Int
  reflect : Int
  light_screen : Int
  safeguard : Int
  tailwind : Int
deriving DecidableEq

/-- Modelled from the spec: read one side-condition counter. -/
def SideConditions.get (sc : SideConditions) : PokemonSideCondition → Int
| PokemonSideCondition.Spikes => sc.spikes
| PokemonSideCondition.ToxicSpikes => sc.toxic_spikes
| PokemonSideCondition.Stealthrock => sc.stealth_rock
| PokemonSideCondition.StickyWeb => sc.sticky_web
| PokemonSideCondition.AuroraVeil => sc.aurora_veil
| PokemonSideCondition.Reflect => sc.reflect
| PokemonSideCondition.LightScreen => sc.light_screen
| PokemonSideCondition.Safeguard => sc.safeguard
| PokemonSideCondition.Tailwind => sc.tailwind

/-- Modelled from the spec: add `amount` to one side-condition counter. -/
def SideConditions.add (sc : SideConditions) : PokemonSideCondition → Int → SideConditions
| PokemonSideCondition.Spikes, a => { sc with spikes := sc.spikes + a }
| PokemonSideCondition.ToxicSpikes, a => { sc with toxic_spikes := sc.toxic_spikes + a }
| PokemonSideCondition.Stealthrock, a => { sc with stealth_rock := sc.stealth_rock + a }
| PokemonSideCondition.StickyWeb, a => { sc with sticky_web := sc.sticky_web + a }
| PokemonSideCondition.AuroraVeil, a => { sc with aurora_veil := sc.aurora_veil + a }
| PokemonSideCondition.Reflect, a => { sc with reflect := sc.reflect + a }
| PokemonSideCondition.LightScreen, a => { sc with light_screen := sc.light_screen + a }
| PokemonSideCondition.Safeguard, a => { sc with safeguard := sc.safeguard + a }
| PokemonSideCondition.Tailwind, a => { sc with tailwind := sc.tailwind + a }

/-- Modelled from the spec: one side of the battle. -/
structure Side where
  pokemon : List Pokemon
  active_index : Nat
  side_conditions : SideConditions
  wish_turns_remaining : Int
  wish_heal_amount : Int
deriving DecidableEq

/-- Modelled from the spec: the battle state. -/
structure State where
  side_one : Side
  side_two : Side
  weather : WeatherState
  terrain : TerrainState
  trick_room : Bool
  team_preview : Bool
deriving DecidableEq

/-- A placeholder creature used only to make list indexing total; a
well-formed state never indexes out of range (the Rust code would panic). -/
def defaultPokemon : Pokemon :=
  { id := ""
    level := 100
    types := (PokemonType.Normal, PokemonType.Typeless)
    hp := 100
    maxhp := 100
    ability := "none"
    item := "none"
    attack := 100
    defense := 100
    special_attack := 100
    special_defense := 100
    speed := 100
    attack_boost := 0
    defense_boost := 0
    special_attack_boost := 0
    special_defense_boost := 0
    speed_boost := 0
    accuracy_boost := 0
    evasion_boost := 0
    status := PokemonStatus.None
    substitute_health := 0
    volatile_statuses := ∅
    moves := [] }

instance : Inhabited Pokemon := ⟨defaultPokemon⟩

/-- Replace the element at index `i` by `f` of it (identity out of range). -/
def listUpdate {α : Type} (l : List α) (i : Nat) (f : α → α) : List α :=
  match l, i with
  | [], _ => []
  | a :: t, 0 => f a :: t
  | a :: t, n + 1 => a :: listUpdate t n f

/-- Modelled from the spec: the active creature of a side. -/
def Side.get_active (s : Side) : Pokemon :=
  s.pokemon.getD s.active_index defaultPokemon

/-- Update the active creature of a side. -/
def Side.update_active (s : Side) (f : Pokemon → Pokemon) : Side :=
  { s with pokemon := listUpdate s.pokemon s.active_index f }

/-- Update the creature at a given index of a side. -/
def Side.update_at (s : Side) (i : Nat) (f : Pokemon → Pokemon) : Side :=
  { s with pokemon := listUpdate s.pokemon i f }

/-- Modelled from the spec: select a side of the state by reference. -/
def State.get_side (s : State) : SideReference → Side
| SideReference.SideOne => s.side_one
| SideReference.SideTwo => s.side_two

/-- Update the referenced side of the state. -/
def State.update_side (s : State) (r : SideReference) (f : Side → Side) : State :=
  match r with
  | SideReference.SideOne => { s with side_one := f s.side_one }
  | SideReference.SideTwo => { s with side_two := f s.side_two }

/-- Modelled from the spec: read a boost field through the boost enum
(`get_boost_from_boost_enum` in `state.rs`). -/
def Pokemon.get_boost_from_boost_enum (p : Pokemon) : PokemonBoostableStat → Int
| PokemonBoostableStat.Attack => p.attack_boost
| PokemonBoostableStat.Defense => p.defense_boost
| PokemonBoostableStat.SpecialAttack => p.special_attack_boost
| PokemonBoostableStat.SpecialDefense => p.special_defense_boost
| PokemonBoostableStat.Speed => p.speed_boost
| PokemonBoostableStat.Accuracy => p.accuracy_boost
| PokemonBoostableStat.Evasion => p.evasion_boost

/-- Add `a` to the boost field selected by the boost enum. -/
def Pokemon.add_boost (p : Pokemon) : PokemonBoostableStat → Int → Pokemon
| PokemonBoostableStat.Attack, a => { p with attack_boost := p.attack_boost + a }
| PokemonBoostableStat.Defense, a => { p with defense_boost := p.defense_boost + a }
| PokemonBoostableStat.SpecialAttack, a => { p with special_attack_boost := p.special_attack_boost + a }
| PokemonBoostableStat.SpecialDefense, a => { p with special_defense_boost := p.special_defense_boost + a }
| PokemonBoostableStat.Speed, a => { p with speed_boost := p.speed_boost + a }
| PokemonBoostableStat.Accuracy, a => { p with accuracy_boost := p.accuracy_boost + a }
| PokemonBoostableStat.Evasion, a => { p with evasion_boost := p.evasion_boost + a }

/-- Modelled from the spec: the closed delta vocabulary of section 4.1.
`VolatileStatus` is the apply-volatile-status delta, matching the
`VolatileStatusInstruction` emitted by `generate_instructions.rs`; the two
wish deltas are carried as reversible counter changes. -/
inductive Instruction
| Switch (side_ref : SideReference) (previous_index : Nat) (next_index : Nat)
| Damage (side_ref : SideReference) (damage_amount : Int)
| Heal (side_ref : SideReference) (heal_amount : Int)
| Boost (side_ref : SideReference) (stat : PokemonBoostableStat) (amount : Int)
| ChangeStatus (side_ref : SideReference) (pokemon_index : Nat)
    (old_status : PokemonStatus) (new_status : PokemonStatus)
| VolatileStatus (side_ref : SideReference) (volatile_status : PokemonVolatileStatus)
| RemoveVolatileStatus (side_ref : SideReference) (volatile_status : PokemonVolatileStatus)
| ChangeSideCondition (side_ref : SideReference)
    (side_condition : PokemonSideCondition) (amount : Int)
| ChangeWeather (new_weather : Weather) (new_turns : Int)
    (previous_weather : Weather) (previous_turns : Int)
| ChangeTerrain (new_terrain : Terrain) (new_turns : Int)
    (previous_terrain : Terrain) (previous_turns : Int)
| ChangeType (side_ref : SideReference) (new_types : PokemonType × PokemonType)
    (previous_types : PokemonType × PokemonType)
| EnableMove (side_ref : SideReference) (move_index : Nat)
| DisableMove (side_ref : SideReference) (move_index : Nat)
| ChangeItem (side_ref : SideReference) (current_item : String) (new_item : String)
| IncrementWish (side_ref : SideReference) (heal_amount : Int)
| DecrementWish (side_ref : SideReference)
| SetSubstituteHealth (side_ref : SideReference) (new_health : Int) (previous_health : Int)
deriving DecidableEq

/-- Modelled from the spec: apply one delta to the state
(`apply_one_instruction` in `state.rs`). -/
def State.apply_one_instruction (s : State) : Instruction → State
| Instruction.Switch r _prev next => s.update_side r (fun sd => { sd with active_index := next })
| Instruction.Damage r amt => s.update_side r (fun sd => sd.update_active (fun p => { p with hp := p.hp - amt }))
| Instruction.Heal r amt => s.update_side r (fun sd => sd.update_active (fun p => { p with hp := p.hp + amt }))
| Instruction.Boost r stat amt => s.update_side r (fun sd => sd.update_active (fun p => p.add_boost stat amt))
| Instruction.ChangeStatus r idx _old new => s.update_side r (fun sd => sd.update_at idx (fun p => { p with status := new }))
| Instruction.VolatileStatus r vs => s.update_side r (fun sd => sd.update_active (fun p => { p with volatile_statuses := insert vs p.volatile_statuses }))
| Instruction.RemoveVolatileStatus r vs => s.update_side r (fun sd => sd.update_active (fun p => { p with volatile_statuses := p.volatile_statuses.erase vs }))
| Instruction.ChangeSideCondition r c amt => s.update_side r (fun sd => { sd with side_conditions := sd.side_conditions.add c amt })
| Instruction.ChangeWeather nw nt _pw _pt => { s with weather := ⟨nw, nt⟩ }
| Instruction.ChangeTerrain nt ntr _pt _ptr => { s with terrain := ⟨nt, ntr⟩ }
| Instruction.ChangeType r newt _prevt => s.update_side r (fun sd => sd.update_active (fun p => { p with types := newt }))
| Instruction.EnableMove r idx => s.update_side r (fun sd => sd.update_active (fun p => { p with moves := listUpdate p.moves idx (fun m => { m with disabled := false }) }))
| Instruction.DisableMove r idx => s.update_side r (fun sd => sd.update_active (fun p => { p with moves := listUpdate p.moves idx (fun m => { m with disabled := true }) }))
| Instruction.ChangeItem r _cur new => s.update_side r (fun sd => sd.update_active (fun p => { p with item := new }))
| Instruction.IncrementWish r amt => s.update_side r (fun sd => { sd with wish_turns_remaining := sd.wish_turns_remaining + 1, wish_heal_amount := sd.wish_heal_amount + amt })
| Instruction.DecrementWish r => s.update_side r (fun sd => { sd with wish_turns_remaining := sd.wish_turns_remaining - 1 })
| Instruction.SetSubstituteHealth r new _prev => s.update_side r (fun sd => sd.update_active (fun p => { p with substitute_health := new }))

/-- Modelled from the spec: reverse one delta
(`reverse_one_instruction` in `state.rs`); uses the old value the delta
carries. -/
def State.reverse_one_instruction (s : State) : Instruction → State
| Instruction.Switch r prev _next => s.update_side r (fun sd => { sd with active_index := prev })
| Instruction.Damage r amt => s.update_side r (fun sd => sd.update_active (fun p => { p with hp := p.hp + amt }))
| Instruction.Heal r amt => s.update_side r (fun sd => sd.update_active (fun p => { p with hp := p.hp - amt }))
| Instruction.Boost r stat amt => s.update_side r (fun sd => sd.update_active (fun p => p.add_boost stat (-amt)))
| Instruction.ChangeStatus r idx old _new => s.update_side r (fun sd => sd.update_at idx (fun p => { p with status := old }))
| Instruction.VolatileStatus r vs => s.update_side r (fun sd => sd.update_active (fun p => { p with volatile_statuses := p.volatile_statuses.erase vs }))
| Instruction.RemoveVolatileStatus r vs => s.update_side r (fun sd => sd.update_active (fun p => { p with volatile_statuses := insert vs p.volatile_statuses }))
| Instruction.ChangeSideCondition r c amt => s.update_side r (fun sd => { sd with side_conditions := sd.side_conditions.add c (-amt) })
| Instruction.ChangeWeather _nw _nt pw pt => { s with weather := ⟨pw, pt⟩ }
| Instruction.ChangeTerrain _nt _ntr pt ptr => { s with terrain := ⟨pt, ptr⟩ }
| Instruction.ChangeType r _newt prevt => s.update_side r (fun sd => sd.update_active (fun p => { p with types := prevt }))
| Instruction.EnableMove r idx => s.update_side r (fun sd => sd.update_active (fun p => { p with moves := listUpdate p.moves idx (fun m => { m with disabled := true }) }))
| Instruction.DisableMove r idx => s.update_side r (fun sd => sd.update_active (fun p => { p with moves := listUpdate p.moves idx (fun m => { m with disabled := false }) }))
| Instruction.ChangeItem r cur _new => s.update_side r (fun sd => sd.update_active (fun p => { p with item := cur }))
| Instruction.IncrementWish r amt => s.update_side r (fun sd => { sd with wish_turns_remaining := sd.wish_turns_remaining - 1, wish_heal_amount := sd.wish_heal_amount - amt })
| Instruction.DecrementWish r => s.update_side r (fun sd => { sd with wish_turns_remaining := sd.wish_turns_remaining + 1 })
| Instruction.SetSubstituteHealth r _new prev => s.update_side r (fun sd => sd.update_active (fun p => { p with substitute_health := prev }))

/-- Modelled from the spec: `apply_all` applies an ordered delta list in
order (`apply_instructions` in `state.rs`). -/
def State.apply_instructions (s : State) (l : List Instruction) : State :=
  l.foldl State.apply_one_instruction s

/-- Modelled from the spec: `reverse_all` reverses each delta in reverse
order (`reverse_instructions` in `state.rs`). -/
def State.reverse_instructions (s : State) (l : List Instruction) : State :=
  l.reverse.foldl State.reverse_one_instruction s

/-- Modelled from the spec: one branch, a probability (as a percentage,
`100 = certain`) together with its ordered delta list
(`StateInstructions` in `instruction.rs`). -/
structure StateInstructions where
  percentage : ℚ
  instruction_list : List Instruction
deriving DecidableEq

/-- Modelled from the spec: `StateInstructions::default()` is the certain
branch with no deltas. -/
def StateInstructions.default : StateInstructions :=
  { percentage := 100, instruction_list := [] }

/-- Modelled from the spec: scale a branch's probability by a factor
(`update_percentage` in `instruction.rs`). -/
def StateInstructions.update_percentage (si : StateInstructions) (m : ℚ) : StateInstructions :=
  { si with percentage := si.percentage * m }

/-- Truncation of a rational toward zero, modelling Rust's `as i16` cast of
an `f32` product. -/
def f32_trunc (q : ℚ) : Int :=
  Int.tdiv q.num (q.den : Int)

/-- Modelled from the spec: per-move flags read by the generator. -/
structure MoveFlags where
  drag : Bool
  powder : Bool
deriving DecidableEq

/-- Modelled from the spec: the side-condition rider of a choice. -/
structure SideConditionSpec where
  target : MoveTarget
  condition : PokemonSideCondition
deriving DecidableEq

/-- Modelled from the spec: the volatile-status rider of a choice. -/
structure VolatileStatusSpec where
  target : MoveTarget
  volatile_status : PokemonVolatileStatus
deriving DecidableEq

/-- Modelled from the spec: the status rider of a choice. -/
structure StatusSpec where
  target : MoveTarget
  status : PokemonStatus
deriving DecidableEq

/-- Modelled from the spec: the boosts requested by a choice, one stage
delta per boostable stat (`StatBoosts` in `choices.rs`). -/
structure StatBoosts where
  attack : Int
  defense : Int
  special_attack : Int
  special_defense : Int
  speed : Int
  accuracy : Int
  evasion : Int
deriving DecidableEq

/-- Modelled from the spec: the boosts as `(stat, delta)` pairs
(`get_as_pokemon_boostable` in `choices.rs`). -/
def StatBoosts.get_as_pokemon_boostable (b : StatBoosts) : List (PokemonBoostableStat × Int) :=
  [ (PokemonBoostableStat.Attack, b.attack)
  , (PokemonBoostableStat.Defense, b.defense)
  , (PokemonBoostableStat.SpecialAttack, b.special_attack)
  , (PokemonBoostableStat.SpecialDefense, b.special_defense)
  , (PokemonBoostableStat.Speed, b.speed)
  , (PokemonBoostableStat.Accuracy, b.accuracy)
  , (PokemonBoostableStat.Evasion, b.evasion) ]

/-- Modelled from the spec: the boost rider of a choice. -/
structure BoostsSpec where
  target : MoveTarget
  boosts : StatBoosts
deriving DecidableEq

/-- Modelled from the spec: the heal rider of a choice (`amount` is a
fraction of the target's max HP). -/
structure HealSpec where
  target : MoveTarget
  amount : ℚ
deriving DecidableEq

/-- Modelled from the spec: a move choice (`Choice` in `choices.rs`).
Accuracy is a percentage (100 = always hits).  Following the spec's design
note that effect hooks are tables of function values keyed by identifier,
the per-move function fields of the Rust struct (`modify_move`,
`hazard_clear`, `after_damage_hit`) live in the `Hooks` table keyed by
`move_id`, and their presence is looked up there. -/
structure Choice where
  move_id : String
  switch_id : Nat
  category : MoveCategory
  first_move : Bool
  flags : MoveFlags
  accuracy : ℚ
  move_type : PokemonType
  priority : Int
  side_condition : Option SideConditionSpec
  volatile_status : Option VolatileStatusSpec
  status : Option StatusSpec
  boost : Option BoostsSpec
  heal : Option HealSpec
  crash : Option ℚ
  drain : Option ℚ
  recoil : Option ℚ
deriving DecidableEq

/-- Modelled from the spec: the effect-hook tables of section 4.3 and the
externally supplied damage calculator of section 4.2, keyed by
ability/item/move identifier, plus the `state.rs` predicates the generator
calls whose definitions are not in the provided sources.  The generator is
parameterized over this record; instantiating every lookup with `none`
gives the behaviour for creatures and moves with no special effects. -/
structure Hooks where
  ability_modify_attack_being_used : String → Option (State → Choice → Choice → SideReference → Choice)
  ability_modify_attack_against : String → Option (State → Choice → Choice → SideReference → Choice)
  ability_before_move : String → Option (State → Choice → SideReference → List Instruction)
  ability_after_damage_hit : String → Option (State → Choice → SideReference → Int → List Instruction)
  item_modify_attack_being_used : String → Option (State → Choice → SideReference → Choice)
  item_modify_attack_against : String → Option (State → Choice → SideReference → Choice)
  choice_modify_move : String → Option (State → Choice → Choice → SideReference → Choice)
  choice_hazard_clear : String → Option (State → Choice → SideReference → List Instruction)
  choice_after_damage_hit : String → Option (State → Choice → SideReference → List Instruction)
  calculate_damage : State → SideReference → Choice → Option (List Int)
  is_grounded : Pokemon → Bool
  item_can_be_removed : Pokemon → Bool
  immune_to_stats_lowered_by_opponent : Pokemon → Bool

/-- The hook table with no effects anywhere: every lookup misses, every
move is non-damaging. -/
def emptyHooks : Hooks :=
  { ability_modify_attack_being_used := fun _ => none
    ability_modify_attack_against := fun _ => none
    ability_before_move := fun _ => none
    ability_after_damage_hit := fun _ => none
    item_modify_attack_being_used := fun _ => none
    item_modify_attack_against := fun _ => none
    choice_modify_move := fun _ => none
    choice_hazard_clear := fun _ => none
    choice_after_damage_hit := fun _ => none
    calculate_damage := fun _ _ _ => none
    is_grounded := fun _ => true
    item_can_be_removed := fun _ => true
    immune_to_stats_lowered_by_opponent := fun _ => false }

/-- Modelled from the spec: whether a volatile status can be applied to the
creature; it fails when the volatile is already present, and `Substitute`
additionally requires more than a quarter of max HP
(`volitile_status_can_be_applied` in `state.rs`, spelling kept). -/
def Pokemon.volitile_status_can_be_applied (p : Pokemon) (vs : PokemonVolatileStatus) : Bool :=
  if vs ∈ p.volatile_statuses then false
  else
    match vs with
    | PokemonVolatileStatus.Substitute => p.hp > p.maxhp / 4
    | _ => true

/-- From `generate_instructions.rs` (`generate_instructions_from_switch`):
the switch short-circuit.  Emits an `EnableMove` for each disabled move of
the outgoing active creature, then the `Switch`, and restores the state by
reversing everything it applied.  The Rust `&mut State` is threaded as an
explicit `State` component of the result. -/
def generate_instructions_from_switch (state : State) (new_pokemon_index : Nat)
    (switching_side : SideReference) (incoming_instructions : StateInstructions) :
    State × List StateInstructions :=
  let state := state.apply_instructions incoming_instructions.instruction_list
  let remove_disabled_instructions :=
    (((state.get_side switching_side).get_active.moves.enum.filter
      (fun m => m.2.disabled)).map
      (fun m => Instruction.EnableMove switching_side m.1))
  let state := state.apply_instructions remove_disabled_instructions
  let incoming_instructions :=
    { incoming_instructions with
      instruction_list := incoming_instructions.instruction_list ++ remove_disabled_instructions }
  let switch_instruction :=
    Instruction.Switch switching_side (state.get_side switching_side).active_index new_pokemon_index
  let state := state.apply_one_instruction switch_instruction
  let incoming_instructions :=
    { incoming_instructions with
      instruction_list := incoming_instructions.instruction_list ++ [switch_instruction] }
  let state := state.reverse_instructions incoming_instructions.instruction_list
  (state, [incoming_instructions])

/-- From `generate_instructions.rs`
(`generate_instructions_from_side_conditions`): side-condition layering.
Note the source caps `ToxicSpikes` at 3 layers, like `Spikes`. -/
def generate_instructions_from_side_conditions (state : State) (choice : Choice)
    (attacking_side_reference : SideReference)
    (incoming_instructions : StateInstructions) : State × StateInstructions :=
  match choice.side_condition with
  | none => (state, incoming_instructions)
  | some side_condition =>
    let state := state.apply_instructions incoming_instructions.instruction_list
    let affected_side_ref :=
      match side_condition.target with
      | MoveTarget.Opponent => attacking_side_reference.get_other_side
      | MoveTarget.User => attacking_side_reference
    let affected_side := state.get_side affected_side_ref
    let max_layers : Int :=
      match side_condition.condition with
      | PokemonSideCondition.Spikes => 3
      | PokemonSideCondition.ToxicSpikes => 3
      | PokemonSideCondition.AuroraVeil =>
          if state.weather.weather_type = Weather.Hail then 1 else 0
      | _ => 1
    let additional_instructions :=
      if affected_side.side_conditions.get side_condition.condition < max_layers then
        [Instruction.ChangeSideCondition affected_side_ref side_condition.condition 1]
      else []
    let state := state.reverse_instructions incoming_instructions.instruction_list
    (state,
      { incoming_instructions with
        instruction_list := incoming_instructions.instruction_list ++ additional_instructions })

/-- From `generate_instructions.rs`
(`get_instructions_from_hazard_clearing_moves`): hazard clearing, with the
per-move clearing function looked up in the hook table. -/
def get_instructions_from_hazard_clearing_moves (hooks : Hooks) (state : State)
    (choice : Choice) (attacking_side_reference : SideReference)
    (incoming_instructions : StateInstructions) : State × StateInstructions :=
  match hooks.choice_hazard_clear choice.move_id with
  | none => (state, incoming_instructions)
  | some hazard_clear_fn =>
    let state := state.apply_instructions incoming_instructions.instruction_list
    let additional_instructions := hazard_clear_fn state choice attacking_side_reference
    let state := state.reverse_instructions incoming_instructions.instruction_list
    (state,
      { incoming_instructions with
        instruction_list := incoming_instructions.instruction_list ++ additional_instructions })

/-- From `generate_instructions.rs` (`get_instructions_from_volatile_statuses`):
volatile-status application; Substitute also emits the quarter-max-HP
self-damage. -/
def get_instructions_from_volatile_statuses (state : State) (choice : Choice)
    (attacking_side_reference : SideReference)
    (incoming_instructions : StateInstructions) : State × StateInstructions :=
  match choice.volatile_status with
  | none => (state, incoming_instructions)
  | some volatile_status =>
    let state := state.apply_instructions incoming_instructions.instruction_list
    let target_side :=
      match volatile_status.target with
      | MoveTarget.Opponent => attacking_side_reference.get_other_side
      | MoveTarget.User => attacking_side_reference
    let affected_pkmn := (state.get_side target_side).get_active
    let additional_instructions :=
      if affected_pkmn.volitile_status_can_be_applied volatile_status.volatile_status then
        [Instruction.VolatileStatus target_side volatile_status.volatile_status] ++
        (if volatile_status.volatile_status = PokemonVolatileStatus.Substitute then
          [Instruction.Damage target_side (Int.tdiv affected_pkmn.maxhp 4)]
        else [])
      else []
    let state := state.reverse_instructions incoming_instructions.instruction_list
    (state,
      { incoming_instructions with
        instruction_list := incoming_instructions.instruction_list ++ additional_instructions })

/-- From `generate_instructions.rs` (`immune_to_status`): all the ways the
target can be immune to a non-volatile status. -/
def immune_to_status (hooks : Hooks) (state : State) (status_target : MoveTarget)
    (target_side_ref : SideReference) (status : PokemonStatus) : Bool :=
  let target_pkmn := (state.get_side target_side_ref).get_active
  if target_pkmn.ability = "shieldsdown" then target_pkmn.hp > Int.tdiv target_pkmn.maxhp 2
  else if target_pkmn.ability = "purifyingsalt" then true
  else if target_pkmn.ability = "comatose" then true
  else if target_pkmn.status ≠ PokemonStatus.None || target_pkmn.hp ≤ 0 then true
  else if state.terrain.terrain_type = Terrain.MistyTerrain && hooks.is_grounded target_pkmn then true
  else if PokemonVolatileStatus.Substitute ∈ target_pkmn.volatile_statuses
          && status_target = MoveTarget.Opponent then true
  else
    match status with
    | PokemonStatus.Burn =>
        target_pkmn.has_type PokemonType.Fire
        || target_pkmn.ability = "waterveil" || target_pkmn.ability = "waterbubble"
    | PokemonStatus.Freeze =>
        target_pkmn.has_type PokemonType.Ice
        || target_pkmn.ability = "magmaarmor"
        || state.weather.weather_type = Weather.HarshSun
    | PokemonStatus.Sleep =>
        (state.terrain.terrain_type = Terrain.ElectricTerrain && hooks.is_grounded target_pkmn)
        || target_pkmn.ability = "insomnia" || target_pkmn.ability = "sweetveil"
        || target_pkmn.ability = "vitalspirit"
    | PokemonStatus.Paralyze =>
        target_pkmn.has_type PokemonType.Electric || target_pkmn.ability = "limber"
    | PokemonStatus.Poison =>
        target_pkmn.has_type PokemonType.Poison || target_pkmn.has_type PokemonType.Steel
        || target_pkmn.ability = "immunity" || target_pkmn.ability = "pastelveil"
    | PokemonStatus.Toxic =>
        target_pkmn.has_type PokemonType.Poison || target_pkmn.has_type PokemonType.Steel
        || target_pkmn.ability = "immunity" || target_pkmn.ability = "pastelveil"
    | _ => false

/-- From `generate_instructions.rs` (`get_instructions_from_status_effects`):
status-effect application with the immunity gate. -/
def get_instructions_from_status_effects (hooks : Hooks) (state : State)
    (choice : Choice) (attacking_side_reference : SideReference)
    (incoming_instructions : StateInstructions) : State × StateInstructions :=
  match choice.status with
  | none => (state, incoming_instructions)
  | some status =>
    let state := state.apply_instructions incoming_instructions.instruction_list
    let target_side_ref :=
      match status.target with
      | MoveTarget.Opponent => attacking_side_reference.get_other_side
      | MoveTarget.User => attacking_side_reference
    if immune_to_status hooks state status.target target_side_ref status.status then
      let state := state.reverse_instructions incoming_instructions.instruction_list
      (state, incoming_instructions)
    else
      let percent_hit := choice.accuracy / 100
      let additional_instructions :=
        if percent_hit > 0 then
          let target_side := state.get_side target_side_ref
          let target_pkmn := target_side.get_active
          [Instruction.ChangeStatus target_side_ref target_side.active_index
            target_pkmn.status status.status]
        else []
      let state := state.reverse_instructions incoming_instructions.instruction_list
      (state,
        { incoming_instructions with
          instruction_list := incoming_instructions.instruction_list ++ additional_instructions })

/-- From `generate_instructions.rs` (`get_instructions_from_boosts`): stat
boosts clamped into `[-6, +6]`, with the clear-body-style protection
against opponent-inflicted drops. -/
def get_instructions_from_boosts (hooks : Hooks) (state : State) (choice : Choice)
    (attacking_side_reference : SideReference)
    (incoming_instructions : StateInstructions) : State × StateInstructions :=
  match choice.boost with
  | none => (state, incoming_instructions)
  | some boosts =>
    let state := state.apply_instructions incoming_instructions.instruction_list
    let target_side_ref :=
      match boosts.target with
      | MoveTarget.Opponent => attacking_side_reference.get_other_side
      | MoveTarget.User => attacking_side_reference
    let percent_hit := choice.accuracy / 100
    let additional_instructions :=
      if percent_hit > 0 then
        let target_pkmn := (state.get_side target_side_ref).get_active
        (boosts.boosts.get_as_pokemon_boostable.filter (fun sb => sb.2 ≠ 0)).foldl
          (fun acc sb =>
            let pkmn_current_boost := target_pkmn.get_boost_from_boost_enum sb.1
            if sb.2 > 0 then
              if pkmn_current_boost = 6 then acc
              else
                let new_boost := min 6 (pkmn_current_boost + sb.2)
                acc ++ [Instruction.Boost target_side_ref sb.1 (new_boost - pkmn_current_boost)]
            else
              if pkmn_current_boost = -6
                 || (target_side_ref ≠ attacking_side_reference
                     && hooks.immune_to_stats_lowered_by_opponent target_pkmn) then acc
              else
                let new_boost := max (-6) (pkmn_current_boost + sb.2)
                acc ++ [Instruction.Boost target_side_ref sb.1 (new_boost - pkmn_current_boost)])
          []
      else []
    let state := state.reverse_instructions incoming_instructions.instruction_list
    (state,
      { incoming_instructions with
        instruction_list := incoming_instructions.instruction_list ++ additional_instructions })

/-- From `generate_instructions.rs`
(`generate_instructions_from_move_special_effect`): the per-move special
effect hook; in the source every arm of the match falls through to the
incoming branch unchanged. -/
def generate_instructions_from_move_special_effect (state : State) (_choice : Choice)
    (_side_reference : SideReference)
    (incoming_instructions : StateInstructions) : State × StateInstructions :=
  (state, incoming_instructions)

/-- From `generate_instructions.rs` (`get_instructions_from_heal`): healing
clamped so HP stays within `[0, maxhp]`; a zero net heal emits nothing. -/
def get_instructions_from_heal (state : State) (choice : Choice)
    (attacking_side_reference : SideReference)
    (incoming_instructions : StateInstructions) : State × StateInstructions :=
  match choice.heal with
  | none => (state, incoming_instructions)
  | some heal =>
    let state := state.apply_instructions incoming_instructions.instruction_list
    let target_side_ref :=
      match heal.target with
      | MoveTarget.Opponent => attacking_side_reference.get_other_side
      | MoveTarget.User => attacking_side_reference
    let target_pkmn := (state.get_side target_side_ref).get_active
    let health_recovered := f32_trunc (heal.amount * (target_pkmn.maxhp : ℚ))
    let final_health := target_pkmn.hp + health_recovered
    let health_recovered :=
      if final_health > target_pkmn.maxhp then
        health_recovered - (final_health - target_pkmn.maxhp)
      else if final_health < 0 then
        health_recovered - final_health
      else health_recovered
    let additional_instructions :=
      if health_recovered ≠ 0 then
        [Instruction.Heal target_side_ref health_recovered]
      else []
    let state := state.reverse_instructions incoming_instructions.instruction_list
    (state,
      { incoming_instructions with
        instruction_list := incoming_instructions.instruction_list ++ additional_instructions })

/-- From `generate_instructions.rs` (`check_move_hit_or_miss`): the accuracy
brancher.  Returns the hit branch and the (possibly empty) list of branches
pushed onto `frozen_instructions`: a miss branch scaled by `1 - p` carrying
crash damage and the blunder-policy deltas when applicable. -/
def check_move_hit_or_miss (hooks : Hooks) (state : State) (choice : Choice)
    (attacking_side_ref : SideReference)
    (incoming_instructions : StateInstructions) :
    State × StateInstructions × List StateInstructions :=
  let state := state.apply_instructions incoming_instructions.instruction_list
  let attacking_side := state.get_side attacking_side_ref
  let attacking_pokemon := attacking_side.get_active
  let percent_hit := choice.accuracy / 100
  let move_hit_instructions :=
    if percent_hit > 0 then incoming_instructions.update_percentage percent_hit
    else incoming_instructions
  let frozen_pushed :=
    if percent_hit < 1 then
      let move_missed_instruction := incoming_instructions.update_percentage (1 - percent_hit)
      let move_missed_instruction :=
        match choice.crash with
        | some crash_fraction =>
          let crash_amount := f32_trunc ((attacking_pokemon.maxhp : ℚ) * crash_fraction)
          { move_missed_instruction with
            instruction_list := move_missed_instruction.instruction_list ++
              [Instruction.Damage attacking_side_ref (min crash_amount attacking_pokemon.hp)] }
        | none => move_missed_instruction
      let move_missed_instruction :=
        if attacking_pokemon.item = "blunderpolicy"
           && hooks.item_can_be_removed attacking_pokemon then
          { move_missed_instruction with
            instruction_list := move_missed_instruction.instruction_list ++
              [ Instruction.ChangeItem attacking_side_ref "blunderpolicy" ""
              , Instruction.Boost attacking_side_ref PokemonBoostableStat.Speed 2 ] }
        else move_missed_instruction
      [move_missed_instruction]
    else []
  let state := state.reverse_instructions incoming_instructions.instruction_list
  (state, move_hit_instructions, frozen_pushed)

/-- From `generate_instructions.rs` (`generate_instructions_from_damage`):
apply one damage roll, including sturdy, the attacker ability's
after-damage-hit deltas, drain, recoil, and the move's after-damage-hit
deltas.  With zero accuracy the hit branch is dropped. -/
def generate_instructions_from_damage (hooks : Hooks) (state : State) (choice : Choice)
    (calculated_damage : Int) (attacking_side_ref : SideReference)
    (incoming_instructions : StateInstructions) : State × List StateInstructions :=
  let state := state.apply_instructions incoming_instructions.instruction_list
  let attacking_pokemon := (state.get_side attacking_side_ref).get_active
  let defending_pokemon := (state.get_side attacking_side_ref.get_other_side).get_active
  let percent_hit := choice.accuracy / 100
  let return_instructions :=
    if percent_hit > 0 then
      let damage_dealt := min calculated_damage defending_pokemon.hp
      let damage_dealt :=
        if defending_pokemon.ability = "sturdy"
           && defending_pokemon.maxhp = defending_pokemon.hp then
          damage_dealt - 1
        else damage_dealt
      let ability_instructions :=
        match hooks.ability_after_damage_hit attacking_pokemon.ability with
        | some after_damage_hit_fn =>
          after_damage_hit_fn state choice attacking_side_ref damage_dealt
        | none => []
      let attacking_pokemon_health := attacking_pokemon.hp
      let drain_result : List Instruction × Int :=
        match choice.drain with
        | some drain_fraction =>
          let drain_amount := f32_trunc ((damage_dealt : ℚ) * drain_fraction)
          let heal_amount := min drain_amount (attacking_pokemon.maxhp - attacking_pokemon_health)
          ([Instruction.Heal attacking_side_ref heal_amount],
            attacking_pokemon_health + heal_amount)
        | none => ([], attacking_pokemon_health)
      let recoil_instructions :=
        match choice.recoil with
        | some recoil_fraction =>
          let recoil_amount := f32_trunc ((damage_dealt : ℚ) * recoil_fraction)
          [Instruction.Damage attacking_side_ref (min recoil_amount drain_result.2)]
        | none => []
      let move_instructions :=
        match hooks.choice_after_damage_hit choice.move_id with
        | some after_damage_hit_fn => after_damage_hit_fn state choice attacking_side_ref
        | none => []
      [{ incoming_instructions with
          instruction_list := incoming_instructions.instruction_list ++
            ([Instruction.Damage attacking_side_ref.get_other_side damage_dealt] ++
              ability_instructions ++ drain_result.1 ++ recoil_instructions ++
              move_instructions) }]
    else []
  let state := state.reverse_instructions incoming_instructions.instruction_list
  (state, return_instructions)

/-- From `generate_instructions.rs` (`cannot_use_move`): the non-branching
filter.  Note the source returns `true` for a Taunted attacker using a
Physical or Special (damaging) move. -/
def cannot_use_move (state : State) (choice : Choice)
    (attacking_side_ref : SideReference) : Bool :=
  let attacking_pkmn := (state.get_side attacking_side_ref).get_active
  if PokemonVolatileStatus.Taunt ∈ attacking_pkmn.volatile_statuses
     && (choice.category = MoveCategory.Physical || choice.category = MoveCategory.Special) then
    true
  else if PokemonVolatileStatus.Flinch ∈ attacking_pkmn.volatile_statuses then
    true
  else if choice.move_type = PokemonType.Electric
          && ((state.get_side attacking_side_ref.get_other_side).get_active.has_type
            PokemonType.Ground) then
    true
  else if choice.flags.powder
          && ((state.get_side attacking_side_ref.get_other_side).get_active.has_type
            PokemonType.Grass) then
    true
  else false

/-- From `generate_instructions.rs` (`before_move`): the attacker ability's
before-move deltas (looked up in the hook table). -/
def before_move (hooks : Hooks) (state : State) (choice : Choice)
    (attacking_side : SideReference) : List Instruction :=
  let attacking_pokemon := (state.get_side attacking_side).get_active
  match hooks.ability_before_move attacking_pokemon.ability with
  | some before_move_fn => before_move_fn state choice attacking_side
  | none => []

/-- From `generate_instructions.rs` (`update_choice`): runs the choice's own
modify-move callback, then the attacker ability, defender ability, attacker
item and defender item modifiers, each on the result of the previous
one. -/
def update_choice (hooks : Hooks) (state : State) (attacker_choice : Choice)
    (defender_choice : Choice) (attacking_side : SideReference) : Choice :=
  let attacking_pokemon := (state.get_side attacking_side).get_active
  let defending_pokemon := (state.get_side attacking_side.get_other_side).get_active
  let c :=
    match hooks.choice_modify_move attacker_choice.move_id with
    | some modify_move_fn => modify_move_fn state attacker_choice defender_choice attacking_side
    | none => attacker_choice
  let c :=
    match hooks.ability_modify_attack_being_used attacking_pokemon.ability with
    | some modify_move_fn => modify_move_fn state c defender_choice attacking_side
    | none => c
  let c :=
    match hooks.ability_modify_attack_against defending_pokemon.ability with
    | some modify_move_fn => modify_move_fn state c defender_choice attacking_side
    | none => c
  let c :=
    match hooks.item_modify_attack_being_used attacking_pokemon.item with
    | some modify_move_fn => modify_move_fn state c attacking_side
    | none => c
  let c :=
    match hooks.item_modify_attack_against defending_pokemon.item with
    | some modify_move_fn => modify_move_fn state c attacking_side
    | none => c
  c

/-- From `generate_instructions.rs`
(`generate_instructions_from_existing_status_conditions`): the pre-move
status brancher.  Returns the state, the branches that proceed, and the
branches pushed onto `frozen_instructions`. -/
def generate_instructions_from_existing_status_conditions (state : State)
    (attacking_side_ref : SideReference) (incoming_instructions : StateInstructions) :
    State × List StateInstructions × List StateInstructions :=
  let apply_reverse_instruction_list := incoming_instructions.instruction_list
  let state := state.apply_instructions apply_reverse_instruction_list
  let attacking_side := state.get_side attacking_side_ref
  let attacker_active := attacking_side.get_active
  let result :=
    match attacker_active.status with
    | PokemonStatus.Paralyze =>
      let fully_paralyzed_instruction := incoming_instructions.update_percentage 0.25
      let proceeding := incoming_instructions.update_percentage 0.75
      ([proceeding], [fully_paralyzed_instruction])
    | PokemonStatus.Freeze =>
      let thaw_instruction :=
        { (incoming_instructions.update_percentage 0.20) with
          instruction_list := incoming_instructions.instruction_list ++
            [Instruction.ChangeStatus attacking_side_ref attacking_side.active_index
              attacker_active.status PokemonStatus.None] }
      let frozen := incoming_instructions.update_percentage 0.80
      ([thaw_instruction], [frozen])
    | PokemonStatus.Sleep =>
      let awake_instruction :=
        { (incoming_instructions.update_percentage 0.33) with
          instruction_list := incoming_instructions.instruction_list ++
            [Instruction.ChangeStatus attacking_side_ref attacking_side.active_index
              attacker_active.status PokemonStatus.None] }
      let asleep := incoming_instructions.update_percentage 0.67
      ([awake_instruction], [asleep])
    | _ => ([incoming_instructions], [])
  let state := state.reverse_instructions apply_reverse_instruction_list
  (state, result)

/-- From `generate_instructions.rs`
(`run_instruction_generation_fn_for_move_hit`): run a non-branching stage
over every surviving branch, threading the state. -/
def run_instruction_generation_fn_for_move_hit
    (instruction_generation_fn :
      State → Choice → SideReference → StateInstructions → State × StateInstructions)
    (state : State) (choice : Choice) (side_reference : SideReference)
    (incoming_instructions : List StateInstructions) : State × List StateInstructions :=
  incoming_instructions.foldl
    (fun acc instruction =>
      let r := instruction_generation_fn acc.1 choice side_reference instruction
      (r.1, acc.2 ++ [r.2]))
    (state, [])

/-- From `generate_instructions.rs` (the `cannot_use_move` loop inside
`generate_instructions_from_move`): branches whose attacker cannot act are
routed to the final set, the rest continue. -/
def filter_cannot_use_move_branches (state : State) (choice : Choice)
    (attacking_side : SideReference) (branches : List StateInstructions) :
    State × List StateInstructions × List StateInstructions :=
  branches.foldl
    (fun acc instruction =>
      let s := acc.1.apply_instructions instruction.instruction_list
      if cannot_use_move s choice attacking_side then
        let s := s.reverse_instructions instruction.instruction_list
        (s, acc.2.1, acc.2.2 ++ [instruction])
      else
        let s := s.reverse_instructions instruction.instruction_list
        (s, acc.2.1 ++ [instruction], acc.2.2))
    (state, [], [])

/-- From `generate_instructions.rs` (the `check_move_hit_or_miss` loop
inside `generate_instructions_from_move`). -/
def run_move_hit_or_miss (hooks : Hooks) (state : State) (choice : Choice)
    (attacking_side : SideReference) (branches : List StateInstructions) :
    State × List StateInstructions × List StateInstructions :=
  branches.foldl
    (fun acc instruction =>
      let r := check_move_hit_or_miss hooks acc.1 choice attacking_side instruction
      (r.1, acc.2.1 ++ [r.2.1], acc.2.2 ++ r.2.2))
    (state, [], [])

/-- From `generate_instructions.rs` (the damage block inside
`generate_instructions_from_move`): split each branch uniformly over the
damage rolls. -/
def run_damage_generation (hooks : Hooks) (state : State) (choice : Choice)
    (attacking_side : SideReference) (damages_dealt : List Int)
    (branches : List StateInstructions) : State × List StateInstructions :=
  branches.foldl
    (fun acc instruction =>
      damages_dealt.foldl
        (fun acc2 dmg =>
          let this_instruction :=
            instruction.update_percentage (1 / (damages_dealt.length : ℚ))
          let r := generate_instructions_from_damage hooks acc2.1 choice dmg
            attacking_side this_instruction
          (r.1, acc2.2 ++ r.2))
        acc)
    (state, [])

/-- From `generate_instructions.rs` (`combine_duplicate_instructions`,
inner loop): merge one branch into the result, summing percentages when an
existing branch has an equal instruction list. -/
def merge_duplicate_into (result : List StateInstructions)
    (instruction_1 : StateInstructions) : List StateInstructions :=
  match result with
  | [] => [instruction_1]
  | instruction_2 :: rest =>
    if instruction_1.instruction_list = instruction_2.instruction_list then
      { instruction_2 with
        percentage := instruction_2.percentage + instruction_1.percentage } :: rest
    else instruction_2 :: merge_duplicate_into rest instruction_1

/-- From `generate_instructions.rs` (`combine_duplicate_instructions`):
deduplicate branches by instruction list, summing their percentages.  (The
Rust `remove(0)` panics on an empty vector; the generator never produces
one.) -/
def combine_duplicate_instructions (list_of_instructions : List StateInstructions) :
    List StateInstructions :=
  match list_of_instructions with
  | [] => []
  | first :: rest => rest.foldl merge_duplicate_into [first]

/-- From `generate_instructions.rs` (`generate_instructions_from_move`): the
single-move half-turn generator, producing every branch for one side's
move. -/
def generate_instructions_from_move (hooks : Hooks) (state : State) (choice : Choice)
    (defender_choice : Choice) (attacking_side : SideReference)
    (incoming_instructions : StateInstructions) : State × List StateInstructions :=
  if choice.category = MoveCategory.Switch then
    generate_instructions_from_switch state choice.switch_id attacking_side
      incoming_instructions
  else if !choice.first_move && choice.flags.drag then
    (state, [incoming_instructions])
  else
    let state := state.apply_instructions incoming_instructions.instruction_list
    if (state.get_side attacking_side).get_active.hp = 0 then
      let state := state.reverse_instructions incoming_instructions.instruction_list
      (state, [incoming_instructions])
    else
      let choice := update_choice hooks state choice defender_choice attacking_side
      let before_move_instructions := before_move hooks state choice attacking_side
      let state := state.apply_instructions before_move_instructions
      let incoming_instructions :=
        { incoming_instructions with
          instruction_list := incoming_instructions.instruction_list ++ before_move_instructions }
      let damage := hooks.calculate_damage state attacking_side choice
      let state := state.reverse_instructions incoming_instructions.instruction_list
      let r1 := generate_instructions_from_existing_status_conditions state attacking_side
        incoming_instructions
      let state := r1.1
      let list_of_instructions := r1.2.1
      let final_instructions := r1.2.2
      let r2 := filter_cannot_use_move_branches state choice attacking_side list_of_instructions
      let state := r2.1
      let next_instructions := r2.2.1
      let final_instructions := final_instructions ++ r2.2.2
      let r3 := run_instruction_generation_fn_for_move_hit
        generate_instructions_from_move_special_effect state choice attacking_side
        next_instructions
      let state := r3.1
      let next_instructions := r3.2
      let r4 := run_move_hit_or_miss hooks state choice attacking_side next_instructions
      let state := r4.1
      let next_instructions := r4.2.1
      let final_instructions := final_instructions ++ r4.2.2
      let r5 :=
        match damage with
        | some damages_dealt =>
          run_damage_generation hooks state choice attacking_side damages_dealt
            next_instructions
        | none => (state, next_instructions)
      let state := r5.1
      let next_instructions := r5.2
      let r6 := run_instruction_generation_fn_for_move_hit
        (fun s c ref i => generate_instructions_from_side_conditions s c ref i)
        state choice attacking_side next_instructions
      let state := r6.1
      let next_instructions := r6.2
      let r7 := run_instruction_generation_fn_for_move_hit
        (get_instructions_from_hazard_clearing_moves hooks)
        state choice attacking_side next_instructions
      let state := r7.1
      let next_instructions := r7.2
      let r8 := run_instruction_generation_fn_for_move_hit
        (fun s c ref i => get_instructions_from_volatile_statuses s c ref i)
        state choice attacking_side next_instructions
      let state := r8.1
      let next_instructions := r8.2
      let r9 := run_instruction_generation_fn_for_move_hit
        (get_instructions_from_status_effects hooks)
        state choice attacking_side next_instructions
      let state := r9.1
      let next_instructions := r9.2
      let r10 := run_instruction_generation_fn_for_move_hit
        (get_instructions_from_boosts hooks)
        state choice attacking_side next_instructions
      let state := r10.1
      let next_instructions := r10.2
      let r11 := run_instruction_generation_fn_for_move_hit
        (fun s c ref i => get_instructions_from_heal s c ref i)
        state choice attacking_side next_instructions
      let state := r11.1
      let next_instructions := r11.2
      let final_instructions := final_instructions ++ next_instructions
      (state, combine_duplicate_instructions final_instructions)

/-- From `generate_instructions.rs` (`generate_instructions_from_move_pair`):
the move-pair driver.  In the source the entire body is
`panic!("Not implemented yet")`; the panic is modelled as `none`. -/
def generate_instructions_from_move_pair : Option (List Instruction) :=
  none

/-! Evaluator (`evaluate.rs`).  Scores are exact rationals; panics are
modelled as `none`.  The source matches the ability through the `Abilities`
enum; the embedding uses the same identifiers in lowercase-string form used
throughout `generate_instructions.rs`. -/

def POKEMON_ALIVE : ℚ := 75
def POKEMON_HP : ℚ := 100
def POKEMON_ATTACK_BOOST : ℚ := 15
def POKEMON_DEFENSE_BOOST : ℚ := 15
def POKEMON_SPECIAL_ATTACK_BOOST : ℚ := 15
def POKEMON_SPECIAL_DEFENSE_BOOST : ℚ := 15
def POKEMON_SPEED_BOOST : ℚ := 25
def POKEMON_FROZEN : ℚ := -40
def POKEMON_ASLEEP : ℚ := -25
def POKEMON_PARALYZED : ℚ := -25
def POKEMON_TOXIC : ℚ := -30
def POKEMON_POISONED : ℚ := -10
def POKEMON_BURNED : ℚ := -25
def LEECH_SEED : ℚ := -30
def SUBSTITUTE : ℚ := 40
def CONFUSION : ℚ := -20
def REFLECT : ℚ := 20
def LIGHT_SCREEN : ℚ := 20
def STICKY_WEB : ℚ := -25
def AURORA_VEIL : ℚ := 40
def SAFE_GUARD : ℚ := 5
def TAILWIND : ℚ := 7
def STEALTH_ROCK : ℚ := -10
def SPIKES : ℚ := -7
def TOXIC_SPIKES : ℚ := -7

/-- From `evaluate.rs` (`evaluate_burned`): context-sensitive burn penalty;
`guts`, `marvelscale` and `quickfeet` give a flat `-2`. -/
def evaluate_burned (pokemon : Pokemon) : ℚ :=
  if pokemon.ability = "guts" || pokemon.ability = "marvelscale"
     || pokemon.ability = "quickfeet" then
    -2
  else
    let multiplier := pokemon.moves.foldl
      (fun acc mv => if mv.category = MoveCategory.Physical then acc + 1 else acc) (0 : ℚ)
    let multiplier :=
      if pokemon.special_attack > pokemon.attack then multiplier / 2 else multiplier
    multiplier * POKEMON_BURNED

/-- From `evaluate.rs` (`get_boost_multiplier`): the stage lookup table; the
`panic!` on a stage outside `[-6, +6]` is modelled as `none`. -/
def get_boost_multiplier (boost : Int) : Option ℚ :=
  if boost = 6 then some 3.3
  else if boost = 5 then some 3.15
  else if boost = 4 then some 3
  else if boost = 3 then some 2.5
  else if boost = 2 then some 2
  else if boost = 1 then some 1
  else if boost = 0 then some 0
  else if boost = -1 then some (-1)
  else if boost = -2 then some (-2)
  else if boost = -3 then some (-2.5)
  else if boost = -4 then some (-3)
  else if boost = -5 then some (-3.15)
  else if boost = -6 then some (-3.3)
  else none

/-- From `evaluate.rs` (`evaluate_pokemon`): score of one living creature.
The volatile-status loop over the set adds each present volatile's
contribution once, written here as one conditional term per scored
volatile. -/
def evaluate_pokemon (pokemon : Pokemon) : Option ℚ := do
  let ab ← get_boost_multiplier pokemon.attack_boost
  let db ← get_boost_multiplier pokemon.defense_boost
  let sab ← get_boost_multiplier pokemon.special_attack_boost
  let sdb ← get_boost_multiplier pokemon.special_defense_boost
  let spb ← get_boost_multiplier pokemon.speed_boost
  let score := POKEMON_ALIVE + POKEMON_HP * pokemon.hp / pokemon.maxhp
  let score := score + ab * POKEMON_ATTACK_BOOST + db * POKEMON_DEFENSE_BOOST
    + sab * POKEMON_SPECIAL_ATTACK_BOOST + sdb * POKEMON_SPECIAL_DEFENSE_BOOST
    + spb * POKEMON_SPEED_BOOST
  let score := score +
    (match pokemon.status with
    | PokemonStatus.Burn => evaluate_burned pokemon
    | PokemonStatus.Freeze => POKEMON_FROZEN
    | PokemonStatus.Sleep => POKEMON_ASLEEP
    | PokemonStatus.Paralyze => POKEMON_PARALYZED
    | PokemonStatus.Toxic => POKEMON_TOXIC
    | PokemonStatus.Poison => POKEMON_POISONED
    | PokemonStatus.None => 0)
  let score := score
    + (if PokemonVolatileStatus.LeechSeed ∈ pokemon.volatile_statuses then LEECH_SEED else 0)
    + (if PokemonVolatileStatus.Substitute ∈ pokemon.volatile_statuses then SUBSTITUTE else 0)
    + (if PokemonVolatileStatus.Confusion ∈ pokemon.volatile_statuses then CONFUSION else 0)
  pure score

/-- The side-condition contribution of one side, added for side one and
subtracted for side two in `evaluate`. -/
def side_conditions_score (side : Side) (alive_count : ℚ) : ℚ :=
  (side.side_conditions.reflect : ℚ) * REFLECT
  + (side.side_conditions.light_screen : ℚ) * LIGHT_SCREEN
  + (side.side_conditions.sticky_web : ℚ) * STICKY_WEB
  + (side.side_conditions.aurora_veil : ℚ) * AURORA_VEIL
  + (side.side_conditions.safeguard : ℚ) * SAFE_GUARD
  + (side.side_conditions.tailwind : ℚ) * TAILWIND
  + (side.side_conditions.stealth_rock : ℚ) * STEALTH_ROCK * alive_count
  + (side.side_conditions.spikes : ℚ) * SPIKES * alive_count
  + (side.side_conditions.toxic_spikes : ℚ) * TOXIC_SPIKES * alive_count

/-- The per-side creature fold of `evaluate`: the pair
`(alive_count, summed creature scores)` over the living creatures, `none`
as soon as one of them panics. -/
def side_pokemon_sum (pokemon : List Pokemon) : Option (ℚ × ℚ) :=
  pokemon.foldlM
    (fun acc pkmn =>
      if pkmn.hp > 0 then
        (evaluate_pokemon pkmn).map (fun v => (acc.1 + 1, acc.2 + v))
      else pure acc)
    ((0 : ℚ), (0 : ℚ))

/-- From `evaluate.rs` (`evaluate`): creature scores added for side one,
subtracted for side two, then the side-condition terms with the hazard
terms scaled by each side's alive count. -/
def evaluate (state : State) : Option ℚ := do
  let s1 ← side_pokemon_sum state.side_one.pokemon
  let s2 ← side_pokemon_sum state.side_two.pokemon
  let score := s1.2 - s2.2
  let score := score + side_conditions_score state.side_one s1.1
  let score := score - side_conditions_score state.side_two s2.1
  pure score

/-- The state with the two sides exchanged (creatures and side
conditions). -/
def swapSides (state : State) : State :=
  { state with side_one := state.side_two, side_two := state.side_one }

/-! Search (`search.rs`).  `f32` scores are idealized as `Option ℚ`: `none`
is the NaN sentinel that α–β pruning writes into skipped entries, and NaN
compares false with everything, so it never updates a running minimum;
the `f32::MIN` / `f32::MAX` fold seeds are idealized as the `⊥` / `⊤` of
`WithBot (WithTop ℚ)`. -/

/-- From `search.rs` (`pick_safest`, inner loop): the running minimum of row
`base / num_s2_moves`, seeded with `f32::MAX` (`⊤`); NaN entries are
skipped. -/
def row_worst_case (score_lookup : List (Option ℚ)) (base : Nat) (num_s2_moves : Nat) :
    WithTop ℚ :=
  (List.range num_s2_moves).foldl
    (fun w j =>
      match score_lookup.getD (base + j) none with
      | none => w
      | some q => if (q : WithTop ℚ) < w then (q : WithTop ℚ) else w)
    ⊤

/-- From `search.rs` (`pick_safest`): the row whose worst case (running
minimum over its columns) is maximal; ties keep the earliest row.  Scores
are row-major with `num_s2_moves` columns. -/
def pick_safest (score_lookup : List (Option ℚ)) (num_s1_moves : Nat) (num_s2_moves : Nat) :
    Nat × WithBot (WithTop ℚ) :=
  (List.range num_s1_moves).foldl
    (fun acc s1_index =>
      let worst_case_this_row := row_worst_case score_lookup (s1_index * num_s2_moves) num_s2_moves
      if acc.2 < (worst_case_this_row : WithBot (WithTop ℚ)) then
        (s1_index, (worst_case_this_row : WithBot (WithTop ℚ)))
      else acc)
    (0, ⊥)

/-- From `search.rs` (`re_order_moves_for_iterative_deepening`): rerank side
one's options by worst-case row minimum, best first (stable).  The Rust
comparator `partial_cmp(..).unwrap()` would panic on a NaN score; the
reordering is stated on the NaN-free scores the non-pruning search
produces. -/
def re_order_moves_for_iterative_deepening {α : Type} [Inhabited α]
    (last_search_result : List (Option ℚ)) (side_one_options : List α)
    (side_two_options : List α) : List α × List α :=
  let num_s1_moves := side_one_options.length
  let num_s2_moves := side_two_options.length
  let worst_case_s1_scores :=
    (List.range num_s1_moves).map
      (fun s1_index =>
        (side_one_options.getD s1_index default,
          row_worst_case last_search_result (s1_index * num_s2_moves) num_s2_moves))
  let sorted := worst_case_s1_scores.mergeSort (fun a b => decide (b.2 ≤ a.2))
  (sorted.map (fun x => x.1), side_two_options)

/-- The deepening loop of `iterative_deepen_expectiminimax` (`for i in
2..depth + 1`), with the per-depth wall-clock measurement abstracted as
`elapsed_ms i` (milliseconds the depth-`i` search took).  The loop breaks
as soon as the depth just completed took more than the literal
`Duration::from_millis(300)`. -/
def iter_deepen_loop {α : Type} [Inhabited α]
    (search : Int → List α → List α → List (Option ℚ)) (elapsed_ms : Int → ℚ)
    (fuel : Nat) (i : Int) (s1_options s2_options : List α)
    (result : List (Option ℚ)) : List α × List α × List (Option ℚ) :=
  match fuel with
  | 0 => (s1_options, s2_options, result)
  | fuel' + 1 =>
    let reordered := re_order_moves_for_iterative_deepening result s1_options s2_options
    let result := search i reordered.1 reordered.2
    if elapsed_ms i > 300 then (reordered.1, reordered.2, result)
    else iter_deepen_loop search elapsed_ms fuel' (i + 1) reordered.1 reordered.2 result

/-- From `search.rs` (`iterative_deepen_expectiminimax`): run depth 1, then
re-rank and re-run at increasing depths.  `search d s1 s2` abstracts
`expectiminimax_search(state, d, s1, s2, ab_prune)` (whose callee
`generate_instructions_from_move_pair` is an unimplemented panic stub in
this crate), and `elapsed_ms d` the measured wall-clock time of the
depth-`d` search.  The `max_time` argument is carried exactly as in the
source, which never reads it. -/
def iterative_deepen_expectiminimax {α : Type} [Inhabited α]
    (search : Int → List α → List α → List (Option ℚ)) (elapsed_ms : Int → ℚ)
    (depth : Int) (side_one_options side_two_options : List α)
    (max_time : ℚ) : List α × List α × List (Option ℚ) :=
  let result := search 1 side_one_options side_two_options
  iter_deepen_loop search elapsed_ms (depth - 1).toNat 2 side_one_options side_two_options
    result

/-! Predicates used by the theorems. -/

/-- Applying the delta list forward and then reversing it restores this
state exactly (the spec's reversibility contract, section 4.1, for a list:
`reverse_all(apply_all(S, D), D) = S`). -/
def RevertsFrom (l : List Instruction) (s : State) : Prop :=
  (s.apply_instructions l).reverse_instructions l = s

/-- One delta applied then reversed restores this state. -/
def InstrRevertsAt (i : Instruction) (s : State) : Prop :=
  (s.apply_one_instruction i).reverse_one_instruction i = s

/-- Every branch's delta list reverts from this state. -/
def AllRevert (branches : List StateInstructions) (s : State) : Prop :=
  ∀ b ∈ branches, RevertsFrom b.instruction_list s

/-- The spec's hook contract (section 4.3): every delta list a hook
produces satisfies the reversibility contract, from any state it may later
be applied to. -/
def HooksRevert (hooks : Hooks) : Prop :=
  (∀ n f, hooks.ability_before_move n = some f →
    ∀ s c r s₂, RevertsFrom (f s c r) s₂) ∧
  (∀ n f, hooks.ability_after_damage_hit n = some f →
    ∀ s c r d s₂, RevertsFrom (f s c r d) s₂) ∧
  (∀ n f, hooks.choice_hazard_clear n = some f →
    ∀ s c r s₂, RevertsFrom (f s c r) s₂) ∧
  (∀ n f, hooks.choice_after_damage_hit n = some f →
    ∀ s c r s₂, RevertsFrom (f s c r) s₂)

/-- The hook-side conditions under which branch probabilities are
conserved: every choice a modify hook returns keeps its accuracy inside
`(0, 100]`, and the damage calculator never returns an empty roll set. -/
def ProbHooks (hooks : Hooks) : Prop :=
  (∀ n f, hooks.choice_modify_move n = some f →
    ∀ s a d r, 0 < (f s a d r).accuracy ∧ (f s a d r).accuracy ≤ 100) ∧
  (∀ n f, hooks.ability_modify_attack_being_used n = some f →
    ∀ s a d r, 0 < (f s a d r).accuracy ∧ (f s a d r).accuracy ≤ 100) ∧
  (∀ n f, hooks.ability_modify_attack_against n = some f →
    ∀ s a d r, 0 < (f s a d r).accuracy ∧ (f s a d r).accuracy ≤ 100) ∧
  (∀ n f, hooks.item_modify_attack_being_used n = some f →
    ∀ s a r, 0 < (f s a r).accuracy ∧ (f s a r).accuracy ≤ 100) ∧
  (∀ n f, hooks.item_modify_attack_against n = some f →
    ∀ s a r, 0 < (f s a r).accuracy ∧ (f s a r).accuracy ≤ 100) ∧
  (∀ s r c d, hooks.calculate_damage s r c = some d → d ≠ [])

/-- The summed percentage of a branch set. -/
def totalPct (branches : List StateInstructions) : ℚ :=
  (branches.map (fun b => b.percentage)).sum

/-- Written from the spec's words for `pick_safest` (section 4.6.2): the
minimum of row `base / cols` over its columns, ignoring NaN entries (`⊤`
when the row is empty or all NaN). -/
def spec_row_min (score_lookup : List (Option ℚ)) (base : Nat) (cols : Nat) : WithTop ℚ :=
  ((List.range cols).filterMap (fun j => score_lookup.getD (base + j) none)).foldr
    (fun q w => min (q : WithTop ℚ) w) ⊤

/-- The same row minimum as a fold over the plain rational entries (proof
form of `spec_row_min`). -/
def cleanRowMin (l : List (Option ℚ)) (base cols : Nat) : WithTop ℚ :=
  List.foldr (fun (q : ℚ) (acc : WithTop ℚ) => min (q : WithTop ℚ) acc) ⊤
    ((List.range cols).filterMap (fun j => l.getD (base + j) none))

/-- All seven stat-stage boosts lie in `[-6, +6]`. -/
def boostsInRange (p : Pokemon) : Prop :=
  (-6 ≤ p.attack_boost ∧ p.attack_boost ≤ 6) ∧
  (-6 ≤ p.defense_boost ∧ p.defense_boost ≤ 6) ∧
  (-6 ≤ p.special_attack_boost ∧ p.special_attack_boost ≤ 6) ∧
  (-6 ≤ p.special_defense_boost ∧ p.special_defense_boost ≤ 6) ∧
  (-6 ≤ p.speed_boost ∧ p.speed_boost ≤ 6) ∧
  (-6 ≤ p.accuracy_boost ∧ p.accuracy_boost ≤ 6) ∧
  (-6 ≤ p.evasion_boost ∧ p.evasion_boost ≤ 6)

instance (p : Pokemon) : Decidable (boostsInRange p) := by
  unfold boostsInRange; infer_instance

/-- Every living creature on either side has all boosts in `[-6, +6]`. -/
def livingBoostsInRange (s : State) : Prop :=
  ∀ p ∈ s.side_one.pokemon ++ s.side_two.pokemon, 0 < p.hp → boostsInRange p

instance (s : State) : Decidable (livingBoostsInRange s) := by
  unfold livingBoostsInRange; infer_instance

/-! Concrete fixtures used by witnesses and counterexamples. -/

/-- A basic physical move slot. -/
def testMove : Move :=
  { id := "tackle", disabled := false, pp := 35, category := MoveCategory.Physical }

/-- A plain creature with four basic moves. -/
def testPokemon : Pokemon :=
  { defaultPokemon with id := "squirtle", moves := [testMove, testMove, testMove, testMove] }

/-- A side of six plain creatures and no side conditions. -/
def testSide : Side :=
  { pokemon := [testPokemon, testPokemon, testPokemon, testPokemon, testPokemon, testPokemon]
    active_index := 0
    side_conditions := ⟨0, 0, 0, 0, 0, 0, 0, 0, 0⟩
    wish_turns_remaining := 0
    wish_heal_amount := 0 }

/-- A plain state: two identical sides, no weather, no terrain. -/
def testState : State :=
  { side_one := testSide
    side_two := testSide
    weather := ⟨Weather.None, 0⟩
    terrain := ⟨Terrain.NoTerrain, 0⟩
    trick_room := false
    team_preview := false }

/-- A plain 100-accuracy physical choice with no riders. -/
def defaultChoice : Choice :=
  { move_id := "tackle"
    switch_id := 0
    category := MoveCategory.Physical
    first_move := true
    flags := ⟨false, false⟩
    accuracy := 100
    move_type := PokemonType.Normal
    priority := 0
    side_condition := none
    volatile_status := none
    status := none
    boost := none
    heal := none
    crash := none
    drain := none
    recoil := none }

/-- A non-damaging choice whose accuracy is zero. -/
def accuracyZeroChoice : Choice :=
  { defaultChoice with category := MoveCategory.Status, accuracy := 0 }

/-- A choice that sets Toxic Spikes on the opponent's side. -/
def toxicSpikesChoice : Choice :=
  { defaultChoice with
    move_id := "toxicspikes"
    category := MoveCategory.Status
    side_condition := some ⟨MoveTarget.Opponent, PokemonSideCondition.ToxicSpikes⟩ }

/-- `testState` with two layers of Toxic Spikes already on side two. -/
def toxicSpikesAtTwoState : State :=
  { testState with
    side_two := { testSide with side_conditions := ⟨0, 2, 0, 0, 0, 0, 0, 0, 0⟩ } }

/-- `testState` whose side-one active creature is Taunted. -/
def tauntState : State :=
  { testState with
    side_one :=
      { testSide with
        pokemon :=
          { testPokemon with volatile_statuses := {PokemonVolatileStatus.Taunt} }
            :: testSide.pokemon.tail } }

/-- A non-damaging (Status-category) choice. -/
def statusCategoryChoice : Choice :=
  { defaultChoice with category := MoveCategory.Status }

/-- `testState` whose side-one active creature is paralyzed. -/
def paralyzedState : State :=
  { testState with
    side_one :=
      { testSide with
        pokemon :=
          { testPokemon with status := PokemonStatus.Paralyze } :: testSide.pokemon.tail } }

/-- `testState` whose side-one active creature carries an attack boost of
`+7`, outside the evaluator's table. -/
def badBoostState : State :=
  { testState with
    side_one :=
      { testSide with
        pokemon :=
          { testPokemon with attack_boost := 7 } :: testSide.pokemon.tail } }

/-! Reversibility infrastructure. -/

theorem apply_instructions_nil (s : State) : s.apply_instructions [] = s := rfl

theorem apply_instructions_append (s : State) (l₁ l₂ : List Instruction) :
    s.apply_instructions (l₁ ++ l₂) = (s.apply_instructions l₁).apply_instructions l₂ :=
  List.foldl_append _ _ _ _

theorem apply_instructions_cons (s : State) (i : Instruction) (l : List Instruction) :
    s.apply_instructions (i :: l) = (s.apply_one_instruction i).apply_instructions l := rfl

theorem reverse_instructions_append (s : State) (l₁ l₂ : List Instruction) :
    s.reverse_instructions (l₁ ++ l₂) = (s.reverse_instructions l₂).reverse_instructions l₁ := by
  unfold State.reverse_instructions
  rw [List.reverse_append, List.foldl_append]

theorem revertsFrom_nil (s : State) : RevertsFrom [] s := rfl

theorem revertsFrom_append {l₁ l₂ : List Instruction} {s : State}
    (h₁ : RevertsFrom l₁ s) (h₂ : RevertsFrom l₂ (s.apply_instructions l₁)) :
    RevertsFrom (l₁ ++ l₂) s := by
  unfold RevertsFrom at h₁ h₂ ⊢
  rw [apply_instructions_append, reverse_instructions_append, h₂, h₁]

theorem revertsFrom_singleton {i : Instruction} {s : State} (h : InstrRevertsAt i s) :
    RevertsFrom [i] s := h

theorem revertsFrom_cons {i : Instruction} {l : List Instruction} {s : State}
    (h₁ : InstrRevertsAt i s) (h₂ : RevertsFrom l (s.apply_one_instruction i)) :
    RevertsFrom (i :: l) s := by
  have := @revertsFrom_append [i] l s (revertsFrom_singleton h₁) h₂
  simpa using this

/-- Delta lists that revert from every state (those made only of
arithmetic-style deltas, and every hook output under `HooksRevert`). -/
theorem revertsFrom_append_univ {l₁ l₂ : List Instruction} {s : State}
    (h₁ : RevertsFrom l₁ s) (h₂ : ∀ s₂, RevertsFrom l₂ s₂) :
    RevertsFrom (l₁ ++ l₂) s :=
  revertsFrom_append h₁ (h₂ _)

/-! Structure-update algebra. -/

theorem update_side_update_side (s : State) (r : SideReference) (f g : Side → Side) :
    (s.update_side r f).update_side r g = s.update_side r (fun sd => g (f sd)) := by
  cases r <;> rfl

theorem update_side_eq_self (s : State) (r : SideReference) (f : Side → Side)
    (h : f (s.get_side r) = s.get_side r) : s.update_side r f = s := by
  cases r <;> simp_all [State.update_side, State.get_side]

theorem listUpdate_comp {α : Type} (l : List α) (i : Nat) (f g : α → α) :
    listUpdate (listUpdate l i f) i g = listUpdate l i (fun a => g (f a)) := by
  induction l generalizing i with
  | nil => rfl
  | cons a t ih =>
    cases i with
    | zero => rfl
    | succ n => simp [listUpdate, ih]

theorem listUpdate_eq_self {α : Type} (l : List α) (i : Nat) (f : α → α)
    (h : ∀ hlt : i < l.length, f (l.get ⟨i, hlt⟩) = l.get ⟨i, hlt⟩) : listUpdate l i f = l := by
  induction l generalizing i with
  | nil => rfl
  | cons a t ih =>
    cases i with
    | zero =>
      have := h (by simp)
      simp_all [listUpdate]
    | succ n =>
      simp only [listUpdate, List.cons.injEq, true_and]
      exact ih n (fun hlt => h (by simpa using Nat.succ_lt_succ hlt))

theorem update_active_comp (sd : Side) (f g : Pokemon → Pokemon) :
    (sd.update_active f).update_active g = sd.update_active (fun p => g (f p)) := by
  simp [Side.update_active, listUpdate_comp]

theorem update_active_eq_self (sd : Side) (f : Pokemon → Pokemon)
    (h : ∀ hlt : sd.active_index < sd.pokemon.length,
      f (sd.pokemon.get ⟨sd.active_index, hlt⟩) = sd.pokemon.get ⟨sd.active_index, hlt⟩) :
    sd.update_active f = sd := by
  simp [Side.update_active, listUpdate_eq_self _ _ _ h]

theorem update_at_comp (sd : Side) (i : Nat) (f g : Pokemon → Pokemon) :
    (sd.update_at i f).update_at i g = sd.update_at i (fun p => g (f p)) := by
  simp [Side.update_at, listUpdate_comp]

theorem update_at_eq_self (sd : Side) (i : Nat) (f : Pokemon → Pokemon)
    (h : ∀ hlt : i < sd.pokemon.length,
      f (sd.pokemon.get ⟨i, hlt⟩) = sd.pokemon.get ⟨i, hlt⟩) :
    sd.update_at i f = sd := by
  simp [Side.update_at, listUpdate_eq_self _ _ _ h]

theorem get_active_eq_get (sd : Side) (h : sd.active_index < sd.pokemon.length) :
    sd.get_active = sd.pokemon.get ⟨sd.active_index, h⟩ := by
  simp [Side.get_active, List.getD_eq_getElem?_getD, List.getElem?_eq_getElem h]

/-! Per-delta reversibility.  `Damage`, `Heal`, `Boost` and
`ChangeSideCondition` are counter changes and revert from every state; the
set-style deltas revert exactly when the old value they carry matches the
state, which is how the generator constructs them. -/

theorem instrReverts_damage (s : State) (r : SideReference) (a : Int) :
    InstrRevertsAt (Instruction.Damage r a) s := by
  simp only [InstrRevertsAt, State.apply_one_instruction, State.reverse_one_instruction]
  rw [update_side_update_side]
  apply update_side_eq_self
  rw [update_active_comp]
  apply update_active_eq_self
  intro hlt
  simp

theorem instrReverts_heal (s : State) (r : SideReference) (a : Int) :
    InstrRevertsAt (Instruction.Heal r a) s := by
  simp only [InstrRevertsAt, State.apply_one_instruction, State.reverse_one_instruction]
  rw [update_side_update_side]
  apply update_side_eq_self
  rw [update_active_comp]
  apply update_active_eq_self
  intro hlt
  simp

theorem instrReverts_boost (s : State) (r : SideReference)
    (stat : PokemonBoostableStat) (a : Int) :
    InstrRevertsAt (Instruction.Boost r stat a) s := by
  simp only [InstrRevertsAt, State.apply_one_instruction, State.reverse_one_instruction]
  rw [update_side_update_side]
  apply update_side_eq_self
  rw [update_active_comp]
  apply update_active_eq_self
  intro hlt
  cases stat <;> simp [Pokemon.add_boost]

theorem instrReverts_changeSideCondition (s : State) (r : SideReference)
    (c : PokemonSideCondition) (a : Int) :
    InstrRevertsAt (Instruction.ChangeSideCondition r c a) s := by
  simp only [InstrRevertsAt, State.apply_one_instruction, State.reverse_one_instruction]
  rw [update_side_update_side]
  apply update_side_eq_self
  cases c <;> simp [SideConditions.add]

theorem instrReverts_switch (s : State) (r : SideReference) (prev next : Nat)
    (h : (s.get_side r).active_index = prev) :
    InstrRevertsAt (Instruction.Switch r prev next) s := by
  simp only [InstrRevertsAt, State.apply_one_instruction, State.reverse_one_instruction]
  rw [update_side_update_side]
  apply update_side_eq_self
  simp [← h]

theorem instrReverts_changeStatus (s : State) (r : SideReference) (idx : Nat)
    (old new : PokemonStatus)
    (h : ∀ hlt : idx < (s.get_side r).pokemon.length,
      ((s.get_side r).pokemon.get ⟨idx, hlt⟩).status = old) :
    InstrRevertsAt (Instruction.ChangeStatus r idx old new) s := by
  simp only [InstrRevertsAt, State.apply_one_instruction, State.reverse_one_instruction]
  rw [update_side_update_side]
  apply update_side_eq_self
  rw [update_at_comp]
  apply update_at_eq_self
  intro hlt
  rw [← h hlt]

theorem instrReverts_volatileStatus (s : State) (r : SideReference)
    (vs : PokemonVolatileStatus)
    (h : vs ∉ (s.get_side r).get_active.volatile_statuses) :
    InstrRevertsAt (Instruction.VolatileStatus r vs) s := by
  simp only [InstrRevertsAt, State.apply_one_instruction, State.reverse_one_instruction]
  rw [update_side_update_side]
  apply update_side_eq_self
  rw [update_active_comp]
  apply update_active_eq_self
  intro hlt
  rw [get_active_eq_get _ hlt] at h
  rw [Finset.erase_insert h]

theorem instrReverts_enableMove (s : State) (r : SideReference) (idx : Nat)
    (h : ∀ hlt : (s.get_side r).active_index < (s.get_side r).pokemon.length,
      ∀ hlt2 : idx < ((s.get_side r).pokemon.get ⟨(s.get_side r).active_index, hlt⟩).moves.length,
        (((s.get_side r).pokemon.get ⟨(s.get_side r).active_index, hlt⟩).moves.get
          ⟨idx, hlt2⟩).disabled = true) :
    InstrRevertsAt (Instruction.EnableMove r idx) s := by
  simp only [InstrRevertsAt, State.apply_one_instruction, State.reverse_one_instruction]
  rw [update_side_update_side]
  apply update_side_eq_self
  rw [update_active_comp]
  apply update_active_eq_self
  intro hlt
  simp only [listUpdate_comp]
  have : listUpdate ((s.get_side r).pokemon.get ⟨(s.get_side r).active_index, hlt⟩).moves idx
      (fun m => { { m with disabled := false } with disabled := true }) =
      ((s.get_side r).pokemon.get ⟨(s.get_side r).active_index, hlt⟩).moves := by
    apply listUpdate_eq_self
    intro hlt2
    simp only []
    rw [← h hlt hlt2]
  simp_all

theorem revertsFrom_of_forall_univ {l : List Instruction}
    (h : ∀ i ∈ l, ∀ s₂, InstrRevertsAt i s₂) (s₂ : State) : RevertsFrom l s₂ := by
  induction l generalizing s₂ with
  | nil => exact revertsFrom_nil _
  | cons a t ih =>
    exact revertsFrom_cons (h a (by simp) _) (ih (fun i hi s₃ => h i (by simp [hi]) s₃) _)

/-! Stage specifications for the state-restoration and
probability-conservation theorems: each stage hands back the state it was
given, its output branch still reverts from that state, and its output
branch keeps the incoming branch's percentage. -/

theorem revertsFrom_ite (c : Prop) [Decidable c] (l₁ l₂ : List Instruction) (s₂ : State)
    (h₁ : c → RevertsFrom l₁ s₂) (h₂ : ¬c → RevertsFrom l₂ s₂) :
    RevertsFrom (if c then l₁ else l₂) s₂ := by
  split
  · exact h₁ (by assumption)
  · exact h₂ (by assumption)

theorem side_conditions_spec (s : State) (c : Choice) (r : SideReference)
    (inc : StateInstructions) (hrev : RevertsFrom inc.instruction_list s) :
    (generate_instructions_from_side_conditions s c r inc).1 = s ∧
    RevertsFrom (generate_instructions_from_side_conditions s c r inc).2.instruction_list s ∧
    (generate_instructions_from_side_conditions s c r inc).2.percentage = inc.percentage := by
  rcases hsc : c.side_condition with _ | sc
  · simp only [generate_instructions_from_side_conditions, hsc]
    exact ⟨trivial, hrev, trivial⟩
  · simp only [generate_instructions_from_side_conditions, hsc]
    refine ⟨hrev, ?_, trivial⟩
    apply revertsFrom_append_univ hrev
    intro s₂
    apply revertsFrom_ite
    · intro _
      exact revertsFrom_singleton (instrReverts_changeSideCondition _ _ _ _)
    · intro _
      exact revertsFrom_nil _

theorem hazard_clearing_spec (hooks : Hooks) (s : State) (c : Choice) (r : SideReference)
    (inc : StateInstructions) (hrev : RevertsFrom inc.instruction_list s)
    (hhooks : HooksRevert hooks) :
    (get_instructions_from_hazard_clearing_moves hooks s c r inc).1 = s ∧
    RevertsFrom (get_instructions_from_hazard_clearing_moves hooks s c r inc).2.instruction_list s ∧
    (get_instructions_from_hazard_clearing_moves hooks s c r inc).2.percentage = inc.percentage := by
  rcases hf : hooks.choice_hazard_clear c.move_id with _ | f
  · simp only [get_instructions_from_hazard_clearing_moves, hf]
    exact ⟨trivial, hrev, trivial⟩
  · simp only [get_instructions_from_hazard_clearing_moves, hf]
    refine ⟨hrev, ?_, trivial⟩
    exact revertsFrom_append_univ hrev (fun s₂ => hhooks.2.2.1 _ f hf _ _ _ s₂)

theorem volatile_statuses_spec (s : State) (c : Choice) (r : SideReference)
    (inc : StateInstructions) (hrev : RevertsFrom inc.instruction_list s) :
    (get_instructions_from_volatile_statuses s c r inc).1 = s ∧
    RevertsFrom (get_instructions_from_volatile_statuses s c r inc).2.instruction_list s ∧
    (get_instructions_from_volatile_statuses s c r inc).2.percentage = inc.percentage := by
  rcases hvs : c.volatile_status with _ | vs
  · simp only [get_instructions_from_volatile_statuses, hvs]
    exact ⟨trivial, hrev, trivial⟩
  · simp only [get_instructions_from_volatile_statuses, hvs]
    refine ⟨hrev, ?_, trivial⟩
    apply revertsFrom_append hrev
    apply revertsFrom_ite
    · intro hcan
      apply revertsFrom_append
      · apply revertsFrom_singleton
        apply instrReverts_volatileStatus
        unfold Pokemon.volitile_status_can_be_applied at hcan
        intro hmem
        simp [hmem] at hcan
      · apply revertsFrom_ite
        · intro _
          exact revertsFrom_singleton (instrReverts_damage _ _ _)
        · intro _
          exact revertsFrom_nil _
    · intro _
      exact revertsFrom_nil _

theorem status_effects_spec (hooks : Hooks) (s : State) (c : Choice) (r : SideReference)
    (inc : StateInstructions) (hrev : RevertsFrom inc.instruction_list s) :
    (get_instructions_from_status_effects hooks s c r inc).1 = s ∧
    RevertsFrom (get_instructions_from_status_effects hooks s c r inc).2.instruction_list s ∧
    (get_instructions_from_status_effects hooks s c r inc).2.percentage = inc.percentage := by
  rcases hst : c.status with _ | st
  · simp only [get_instructions_from_status_effects, hst]
    exact ⟨trivial, hrev, trivial⟩
  · simp only [get_instructions_from_status_effects, hst]
    split
    · exact ⟨hrev, hrev, rfl⟩
    · refine ⟨hrev, ?_, rfl⟩
      apply revertsFrom_append hrev
      apply revertsFrom_ite
      · intro _
        apply revertsFrom_singleton
        apply instrReverts_changeStatus
        intro hlt
        rw [← get_active_eq_get _ hlt]
      · intro _
        exact revertsFrom_nil _

theorem heal_spec (s : State) (c : Choice) (r : SideReference)
    (inc : StateInstructions) (hrev : RevertsFrom inc.instruction_list s) :
    (get_instructions_from_heal s c r inc).1 = s ∧
    RevertsFrom (get_instructions_from_heal s c r inc).2.instruction_list s ∧
    (get_instructions_from_heal s c r inc).2.percentage = inc.percentage := by
  rcases hh : c.heal with _ | h
  · simp only [get_instructions_from_heal, hh]
    exact ⟨trivial, hrev, trivial⟩
  · simp only [get_instructions_from_heal, hh]
    refine ⟨hrev, ?_, trivial⟩
    apply revertsFrom_append_univ hrev
    intro s₂
    apply revertsFrom_ite
    · intro _
      exact revertsFrom_singleton (instrReverts_heal _ _ _)
    · intro _
      exact revertsFrom_nil _

theorem univ_append {l₁ l₂ : List Instruction}
    (h₁ : ∀ s₂, RevertsFrom l₁ s₂) (h₂ : ∀ s₂, RevertsFrom l₂ s₂) :
    ∀ s₂, RevertsFrom (l₁ ++ l₂) s₂ :=
  fun s₂ => revertsFrom_append (h₁ s₂) (h₂ _)

theorem listUpdate_length {α : Type} (l : List α) (i : Nat) (f : α → α) :
    (listUpdate l i f).length = l.length := by
  induction l generalizing i with
  | nil => rfl
  | cons a t ih => cases i <;> simp [listUpdate, ih]

theorem listUpdate_get_ne {α : Type} (l : List α) (i j : Nat) (f : α → α) (hne : j ≠ i)
    (hj : j < l.length) (hj2 : j < (listUpdate l i f).length) :
    (listUpdate l i f).get ⟨j, hj2⟩ = l.get ⟨j, hj⟩ := by
  induction l generalizing i j with
  | nil => cases hj
  | cons a t ih =>
    cases i with
    | zero =>
      cases j with
      | zero => exact absurd rfl hne
      | succ m => simp [listUpdate]
    | succ n =>
      cases j with
      | zero => simp [listUpdate]
      | succ m =>
        simp only [listUpdate, List.get_cons_succ]
        exact ih n m (fun h => hne (by simp [h])) (by simpa using hj) (by simpa [listUpdate] using hj2)

theorem get_side_update_side_same (s : State) (r : SideReference) (f : Side → Side) :
    (s.update_side r f).get_side r = f (s.get_side r) := by
  cases r <;> rfl

theorem listUpdate_get_same {α : Type} (l : List α) (i : Nat) (f : α → α)
    (hi : i < l.length) (hi2 : i < (listUpdate l i f).length) :
    (listUpdate l i f).get ⟨i, hi2⟩ = f (l.get ⟨i, hi⟩) := by
  induction l generalizing i with
  | nil => cases hi
  | cons a t ih =>
    cases i with
    | zero => rfl
    | succ n =>
      simp only [listUpdate, List.get_cons_succ]
      exact ih n (by simpa using hi) (by simpa [listUpdate] using hi2)

/-- A list of `EnableMove` deltas at pairwise distinct move indices, each of
which is currently disabled on the active creature, reverts. -/
theorem enable_list_reverts (r : SideReference) (idxs : List Nat) : ∀ (s₁ : State),
    idxs.Nodup →
    (∀ i ∈ idxs, ∀ (h1 : (s₁.get_side r).active_index < (s₁.get_side r).pokemon.length)
      (h2 : i < ((s₁.get_side r).pokemon.get ⟨(s₁.get_side r).active_index, h1⟩).moves.length),
      (((s₁.get_side r).pokemon.get ⟨(s₁.get_side r).active_index, h1⟩).moves.get
        ⟨i, h2⟩).disabled = true) →
    RevertsFrom (idxs.map (Instruction.EnableMove r)) s₁ := by
  induction idxs with
  | nil => intro s₁ _ _; exact revertsFrom_nil _
  | cons i rest ih =>
    intro s₁ hnd hdis
    apply revertsFrom_cons
    · exact instrReverts_enableMove _ _ _ (hdis i (by simp))
    · apply ih
      · exact hnd.of_cons
      · intro j hj h1 h2
        have hji : j ≠ i := by
          rintro rfl
          exact (List.nodup_cons.mp hnd).1 hj
        have happ :
            (s₁.apply_one_instruction (Instruction.EnableMove r i)).get_side r =
              (s₁.get_side r).update_active
                (fun p => { p with moves := listUpdate p.moves i (fun m => { m with disabled := false }) }) := by
          simp only [State.apply_one_instruction]
          exact get_side_update_side_same _ _ _
        revert h1 h2
        rw [happ]
        simp only [Side.update_active]
        intro h1 h2
        have hai : (s₁.get_side r).active_index < (s₁.get_side r).pokemon.length := by
          simpa [listUpdate_length] using h1
        revert h2
        rw [listUpdate_get_same _ _ _ hai h1]
        simp only []
        intro h2
        have h2b : j < ((s₁.get_side r).pokemon.get
            ⟨(s₁.get_side r).active_index, hai⟩).moves.length := by
          simpa [listUpdate_length] using h2
        rw [listUpdate_get_ne _ i j _ hji h2b h2]
        exact hdis j (by simp [hj]) hai h2b

theorem switch_spec (s : State) (k : Nat) (r : SideReference) (inc : StateInstructions)
    (hrev : RevertsFrom inc.instruction_list s) :
    (generate_instructions_from_switch s k r inc).1 = s ∧
    ∃ l, (generate_instructions_from_switch s k r inc).2 =
      [{ percentage := inc.percentage, instruction_list := l }] := by
  unfold generate_instructions_from_switch
  simp only []
  set s₁ := s.apply_instructions inc.instruction_list with hs₁
  set enables :=
    ((((s₁.get_side r).get_active.moves.enum.filter (fun m => m.2.disabled)).map
      (fun m => Instruction.EnableMove r m.1))) with henables
  refine ⟨?_, ⟨_, rfl⟩⟩
  have hen_rev : RevertsFrom enables s₁ := by
    rw [henables]
    have hmapmap :
        (((s₁.get_side r).get_active.moves.enum.filter (fun m => m.2.disabled)).map
          (fun m => Instruction.EnableMove r m.1)) =
        ((((s₁.get_side r).get_active.moves.enum.filter (fun m => m.2.disabled)).map
          Prod.fst).map (Instruction.EnableMove r)) := by
      rw [List.map_map]
      rfl
    rw [hmapmap]
    apply enable_list_reverts
    · apply List.Nodup.sublist
      · exact List.Sublist.map Prod.fst (List.filter_sublist _)
      · exact List.nodup_enum_map_fst _
    · intro i hi h1 h2
      rcases List.mem_map.mp hi with ⟨⟨i2, m⟩, hmem, heq⟩
      simp only [] at heq
      subst heq
      rcases List.mem_filter.mp hmem with ⟨hmem2, hdis⟩
      have hget : (s₁.get_side r).get_active.moves.get? i2 = some m :=
        List.mk_mem_enum_iff_get?.mp hmem2
      rw [get_active_eq_get _ h1] at hget
      rw [List.get?_eq_get h2] at hget
      have : ((s₁.get_side r).pokemon.get ⟨(s₁.get_side r).active_index, h1⟩).moves.get
          ⟨i2, h2⟩ = m := by
        exact Option.some.inj hget
      rw [this]
      simpa using hdis
  have hfull : RevertsFrom ((inc.instruction_list ++ enables) ++
      [Instruction.Switch r ((s₁.apply_instructions enables).get_side r).active_index k]) s := by
    apply revertsFrom_append
    · exact revertsFrom_append hrev (by rw [← hs₁]; exact hen_rev)
    · apply revertsFrom_singleton
      apply instrReverts_switch
      rw [apply_instructions_append, ← hs₁]
  have happly :
      ((s₁.apply_instructions enables).apply_one_instruction
        (Instruction.Switch r ((s₁.apply_instructions enables).get_side r).active_index k)) =
      s.apply_instructions ((inc.instruction_list ++ enables) ++
        [Instruction.Switch r ((s₁.apply_instructions enables).get_side r).active_index k]) := by
    rw [apply_instructions_append, apply_instructions_append, ← hs₁]
    rfl
  rw [happly]
  exact hfull

theorem totalPct_nil : totalPct [] = 0 := rfl

theorem totalPct_cons (a : StateInstructions) (l : List StateInstructions) :
    totalPct (a :: l) = a.percentage + totalPct l := by
  simp [totalPct]

theorem totalPct_append (l₁ l₂ : List StateInstructions) :
    totalPct (l₁ ++ l₂) = totalPct l₁ + totalPct l₂ := by
  simp [totalPct]

theorem totalPct_singleton (a : StateInstructions) : totalPct [a] = a.percentage := by
  simp [totalPct]

theorem fold_only_boosts {β : Type} (g : List Instruction → β → List Instruction)
    (hg : ∀ acc b, g acc b = acc ∨ ∃ r st a, g acc b = acc ++ [Instruction.Boost r st a])
    (l : List β) :
    ∀ acc x, x ∈ l.foldl g acc → x ∈ acc ∨ ∃ r st a, x = Instruction.Boost r st a := by
  induction l with
  | nil => intro acc x hx; exact Or.inl hx
  | cons b t ih =>
    intro acc x hx
    rcases ih (g acc b) x hx with hmem | hB
    · rcases hg acc b with he | ⟨r, st, a, he⟩
      · rw [he] at hmem
        exact Or.inl hmem
      · rw [he] at hmem
        rcases List.mem_append.mp hmem with h | h
        · exact Or.inl h
        · simp only [List.mem_singleton] at h
          exact Or.inr ⟨r, st, a, h⟩
    · exact Or.inr hB

theorem boosts_spec (hooks : Hooks) (s : State) (c : Choice) (r : SideReference)
    (inc : StateInstructions) (hrev : RevertsFrom inc.instruction_list s) :
    (get_instructions_from_boosts hooks s c r inc).1 = s ∧
    RevertsFrom (get_instructions_from_boosts hooks s c r inc).2.instruction_list s ∧
    (get_instructions_from_boosts hooks s c r inc).2.percentage = inc.percentage := by
  rcases hb : c.boost with _ | b
  · simp only [get_instructions_from_boosts, hb]
    exact ⟨trivial, hrev, trivial⟩
  · simp only [get_instructions_from_boosts, hb]
    refine ⟨hrev, ?_, trivial⟩
    apply revertsFrom_append_univ hrev
    intro s₂
    apply revertsFrom_ite
    · intro _
      apply revertsFrom_of_forall_univ
      intro i hi s₃
      have honly := fold_only_boosts _ ?hg _ _ i hi
      rcases honly with hmem | ⟨r2, st, a, he⟩
      · simp at hmem
      · subst he
        exact instrReverts_boost _ _ _ _
      case hg =>
        intro acc sb
        split
        · split
          · exact Or.inl rfl
          · exact Or.inr ⟨_, _, _, rfl⟩
        · split
          · exact Or.inl rfl
          · exact Or.inr ⟨_, _, _, rfl⟩
    · intro _
      exact revertsFrom_nil _

theorem damage_spec (hooks : Hooks) (s : State) (c : Choice) (dmg : Int)
    (r : SideReference) (inc : StateInstructions)
    (hrev : RevertsFrom inc.instruction_list s) (hhooks : HooksRevert hooks) :
    (generate_instructions_from_damage hooks s c dmg r inc).1 = s ∧
    AllRevert (generate_instructions_from_damage hooks s c dmg r inc).2 s ∧
    totalPct (generate_instructions_from_damage hooks s c dmg r inc).2 =
      (if 0 < c.accuracy / 100 then inc.percentage else 0) := by
  simp only [generate_instructions_from_damage]
  refine ⟨hrev, ?_, ?_⟩
  · split
    · rename_i hpos
      intro bb hbb
      simp only [List.mem_singleton] at hbb
      subst hbb
      apply revertsFrom_append hrev
      apply revertsFrom_append ?left ?right
      case right =>
        rcases hmv : hooks.choice_after_damage_hit c.move_id with _ | f
        · simp only [hmv]
          exact revertsFrom_nil _
        · simp only [hmv]
          exact hhooks.2.2.2 _ f hmv _ _ _ _
      case left =>
        apply univ_append ?_ ?_ _
        · apply univ_append ?_ ?_
          · apply univ_append ?_ ?_
            · intro s₂
              exact revertsFrom_singleton (instrReverts_damage _ _ _)
            · intro s₂
              rcases hab : hooks.ability_after_damage_hit
                  ((((s.apply_instructions inc.instruction_list)).get_side r).get_active.ability)
                with _ | f
              · simp only [hab]
                exact revertsFrom_nil _
              · simp only [hab]
                exact hhooks.2.1 _ f hab _ _ _ _ _
          · intro s₂
            rcases hdr : c.drain with _ | df
            · simp only [hdr]
              exact revertsFrom_nil _
            · simp only [hdr]
              exact revertsFrom_singleton (instrReverts_heal _ _ _)
        · intro s₂
          rcases hrc : c.recoil with _ | rf
          · simp only [hrc]
            exact revertsFrom_nil _
          · simp only [hrc]
            exact revertsFrom_singleton (instrReverts_damage _ _ _)
    · intro bb hbb
      simp at hbb
  · split
    · simp [totalPct]
    · exact totalPct_nil

theorem hit_or_miss_spec (hooks : Hooks) (s : State) (c : Choice) (r : SideReference)
    (inc : StateInstructions) (hrev : RevertsFrom inc.instruction_list s) :
    (check_move_hit_or_miss hooks s c r inc).1 = s ∧
    RevertsFrom (check_move_hit_or_miss hooks s c r inc).2.1.instruction_list s ∧
    (0 < c.accuracy → c.accuracy ≤ 100 →
      (check_move_hit_or_miss hooks s c r inc).2.1.percentage +
        totalPct (check_move_hit_or_miss hooks s c r inc).2.2 = inc.percentage) := by
  simp only [check_move_hit_or_miss]
  refine ⟨hrev, ?_, ?_⟩
  · split
    · exact hrev
    · exact hrev
  · intro h0 h100
    have hph0 : (0 : ℚ) < c.accuracy / 100 := by positivity
    have hph1 : c.accuracy / 100 ≤ 1 := by
      rw [div_le_one (by norm_num)]
      exact h100
    rw [if_pos hph0]
    by_cases hlt : c.accuracy / 100 < 1
    · rw [if_pos hlt]
      have hpct : ∀ (mmi : StateInstructions),
          (match c.crash with
          | some crash_fraction =>
            { mmi with
              instruction_list := mmi.instruction_list ++
                [Instruction.Damage r
                  (min (f32_trunc
                    ((((s.apply_instructions inc.instruction_list).get_side r).get_active.maxhp : ℚ)
                      * crash_fraction))
                    ((s.apply_instructions inc.instruction_list).get_side r).get_active.hp)] }
          | none => mmi).percentage = mmi.percentage := by
        intro mmi
        rcases c.crash with _ | cf <;> rfl
      have hpct2 : ∀ (mmi : StateInstructions) (l : List Instruction),
          (if (((s.apply_instructions inc.instruction_list).get_side r).get_active.item
                = "blunderpolicy")
              && hooks.item_can_be_removed
                ((s.apply_instructions inc.instruction_list).get_side r).get_active then
            { mmi with instruction_list := mmi.instruction_list ++ l }
          else mmi).percentage = mmi.percentage := by
        intro mmi l
        split <;> rfl
      rw [totalPct_singleton, hpct2, hpct]
      simp only [StateInstructions.update_percentage]
      ring
    · rw [if_neg hlt, totalPct_nil]
      have : c.accuracy / 100 = 1 := le_antisymm hph1 (not_lt.mp hlt)
      rw [this]
      simp [StateInstructions.update_percentage]

theorem status_conditions_spec (s : State) (r : SideReference) (inc : StateInstructions)
    (hrev : RevertsFrom inc.instruction_list s) :
    (generate_instructions_from_existing_status_conditions s r inc).1 = s ∧
    AllRevert (generate_instructions_from_existing_status_conditions s r inc).2.1 s ∧
    totalPct (generate_instructions_from_existing_status_conditions s r inc).2.1 +
      totalPct (generate_instructions_from_existing_status_conditions s r inc).2.2 =
      inc.percentage := by
  simp only [generate_instructions_from_existing_status_conditions]
  refine ⟨hrev, ?_, ?_⟩
  · split
    · intro bb hbb
      simp only [List.mem_singleton] at hbb
      subst hbb
      exact hrev
    · intro bb hbb
      simp only [List.mem_singleton] at hbb
      subst hbb
      apply revertsFrom_append hrev
      apply revertsFrom_singleton
      apply instrReverts_changeStatus
      intro hlt
      rw [← get_active_eq_get _ hlt]
    · intro bb hbb
      simp only [List.mem_singleton] at hbb
      subst hbb
      apply revertsFrom_append hrev
      apply revertsFrom_singleton
      apply instrReverts_changeStatus
      intro hlt
      rw [← get_active_eq_get _ hlt]
    · intro bb hbb
      simp only [List.mem_singleton] at hbb
      subst hbb
      exact hrev
  · split <;>
      simp [totalPct, StateInstructions.update_percentage] <;> ring

theorem run_gen_aux
    (f : State → Choice → SideReference → StateInstructions → State × StateInstructions)
    (c : Choice) (ref : SideReference) (s : State)
    (hf : ∀ inc, RevertsFrom inc.instruction_list s →
      (f s c ref inc).1 = s ∧ RevertsFrom (f s c ref inc).2.instruction_list s ∧
      (f s c ref inc).2.percentage = inc.percentage) :
    ∀ (branches outs : List StateInstructions), AllRevert branches s → AllRevert outs s →
      (branches.foldl (fun acc instruction =>
          ((f acc.1 c ref instruction).1, acc.2 ++ [(f acc.1 c ref instruction).2]))
        (s, outs)).1 = s ∧
      AllRevert (branches.foldl (fun acc instruction =>
          ((f acc.1 c ref instruction).1, acc.2 ++ [(f acc.1 c ref instruction).2]))
        (s, outs)).2 s ∧
      totalPct (branches.foldl (fun acc instruction =>
          ((f acc.1 c ref instruction).1, acc.2 ++ [(f acc.1 c ref instruction).2]))
        (s, outs)).2 = totalPct outs + totalPct branches := by
  intro branches
  induction branches with
  | nil =>
    intro outs _ houts
    exact ⟨rfl, houts, by simp [totalPct_nil]⟩
  | cons b t ih =>
    intro outs hbr houts
    obtain ⟨hfst, hblist, hbpct⟩ := hf b (hbr b (by simp))
    have key : (b :: t).foldl (fun acc instruction =>
          ((f acc.1 c ref instruction).1, acc.2 ++ [(f acc.1 c ref instruction).2]))
        (s, outs) = t.foldl (fun acc instruction =>
          ((f acc.1 c ref instruction).1, acc.2 ++ [(f acc.1 c ref instruction).2]))
        (s, outs ++ [(f s c ref b).2]) := by
      rw [List.foldl_cons]
      congr 1
      show ((f s c ref b).1, outs ++ [(f s c ref b).2]) = (s, outs ++ [(f s c ref b).2])
      rw [hfst]
    rw [key]
    have houts2 : AllRevert (outs ++ [(f s c ref b).2]) s := by
      intro x hx
      rcases List.mem_append.mp hx with h | h
      · exact houts x h
      · simp only [List.mem_singleton] at h
        subst h
        exact hblist
    obtain ⟨h1, h2, h3⟩ := ih (outs ++ [(f s c ref b).2]) (fun x hx => hbr x (by simp [hx])) houts2
    refine ⟨h1, h2, ?_⟩
    rw [h3, totalPct_append, totalPct_singleton, hbpct, totalPct_cons]
    ring

theorem run_gen_spec
    (f : State → Choice → SideReference → StateInstructions → State × StateInstructions)
    (s : State) (c : Choice) (ref : SideReference) (branches : List StateInstructions)
    (hf : ∀ inc, RevertsFrom inc.instruction_list s →
      (f s c ref inc).1 = s ∧ RevertsFrom (f s c ref inc).2.instruction_list s ∧
      (f s c ref inc).2.percentage = inc.percentage)
    (hbr : AllRevert branches s) :
    (run_instruction_generation_fn_for_move_hit f s c ref branches).1 = s ∧
    AllRevert (run_instruction_generation_fn_for_move_hit f s c ref branches).2 s ∧
    totalPct (run_instruction_generation_fn_for_move_hit f s c ref branches).2 =
      totalPct branches := by
  have h := run_gen_aux f c ref s hf branches [] hbr (by intro b hb; simp at hb)
  refine ⟨h.1, h.2.1, ?_⟩
  have h3 := h.2.2
  rw [totalPct_nil, zero_add] at h3
  exact h3

theorem filter_aux (c : Choice) (ref : SideReference) (s : State) :
    ∀ (branches nexts finals : List StateInstructions), AllRevert branches s →
      AllRevert nexts s →
      (branches.foldl (fun acc instruction =>
          if cannot_use_move (acc.1.apply_instructions instruction.instruction_list) c ref then
            ((acc.1.apply_instructions instruction.instruction_list).reverse_instructions
                instruction.instruction_list, acc.2.1, acc.2.2 ++ [instruction])
          else
            ((acc.1.apply_instructions instruction.instruction_list).reverse_instructions
                instruction.instruction_list, acc.2.1 ++ [instruction], acc.2.2))
        (s, nexts, finals)).1 = s ∧
      AllRevert (branches.foldl (fun acc instruction =>
          if cannot_use_move (acc.1.apply_instructions instruction.instruction_list) c ref then
            ((acc.1.apply_instructions instruction.instruction_list).reverse_instructions
                instruction.instruction_list, acc.2.1, acc.2.2 ++ [instruction])
          else
            ((acc.1.apply_instructions instruction.instruction_list).reverse_instructions
                instruction.instruction_list, acc.2.1 ++ [instruction], acc.2.2))
        (s, nexts, finals)).2.1 s ∧
      totalPct (branches.foldl (fun acc instruction =>
          if cannot_use_move (acc.1.apply_instructions instruction.instruction_list) c ref then
            ((acc.1.apply_instructions instruction.instruction_list).reverse_instructions
                instruction.instruction_list, acc.2.1, acc.2.2 ++ [instruction])
          else
            ((acc.1.apply_instructions instruction.instruction_list).reverse_instructions
                instruction.instruction_list, acc.2.1 ++ [instruction], acc.2.2))
        (s, nexts, finals)).2.1 +
      totalPct (branches.foldl (fun acc instruction =>
          if cannot_use_move (acc.1.apply_instructions instruction.instruction_list) c ref then
            ((acc.1.apply_instructions instruction.instruction_list).reverse_instructions
                instruction.instruction_list, acc.2.1, acc.2.2 ++ [instruction])
          else
            ((acc.1.apply_instructions instruction.instruction_list).reverse_instructions
                instruction.instruction_list, acc.2.1 ++ [instruction], acc.2.2))
        (s, nexts, finals)).2.2 =
      totalPct nexts + totalPct finals + totalPct branches := by
  intro branches
  induction branches with
  | nil =>
    intro nexts finals _ hnx
    exact ⟨rfl, hnx, by simp [totalPct_nil]⟩
  | cons b t ih =>
    intro nexts finals hbr hnx
    have hbrev : (s.apply_instructions b.instruction_list).reverse_instructions
        b.instruction_list = s := hbr b (by simp)
    by_cases hcu : cannot_use_move (s.apply_instructions b.instruction_list) c ref
    · have key : (b :: t).foldl (fun acc instruction =>
            if cannot_use_move (acc.1.apply_instructions instruction.instruction_list) c ref then
              ((acc.1.apply_instructions instruction.instruction_list).reverse_instructions
                  instruction.instruction_list, acc.2.1, acc.2.2 ++ [instruction])
            else
              ((acc.1.apply_instructions instruction.instruction_list).reverse_instructions
                  instruction.instruction_list, acc.2.1 ++ [instruction], acc.2.2))
          (s, nexts, finals) = t.foldl (fun acc instruction =>
            if cannot_use_move (acc.1.apply_instructions instruction.instruction_list) c ref then
              ((acc.1.apply_instructions instruction.instruction_list).reverse_instructions
                  instruction.instruction_list, acc.2.1, acc.2.2 ++ [instruction])
            else
              ((acc.1.apply_instructions instruction.instruction_list).reverse_instructions
                  instruction.instruction_list, acc.2.1 ++ [instruction], acc.2.2))
          (s, nexts, finals ++ [b]) := by
        rw [List.foldl_cons]
        congr 1
        show (if cannot_use_move (s.apply_instructions b.instruction_list) c ref then
            ((s.apply_instructions b.instruction_list).reverse_instructions
                b.instruction_list, nexts, finals ++ [b])
          else
            ((s.apply_instructions b.instruction_list).reverse_instructions
                b.instruction_list, nexts ++ [b], finals)) = (s, nexts, finals ++ [b])
        rw [if_pos hcu, hbrev]
      rw [key]
      obtain ⟨h1, h2, h3⟩ := ih nexts (finals ++ [b]) (fun x hx => hbr x (by simp [hx])) hnx
      refine ⟨h1, h2, ?_⟩
      rw [h3, totalPct_append, totalPct_singleton, totalPct_cons]
      ring
    · have key : (b :: t).foldl (fun acc instruction =>
            if cannot_use_move (acc.1.apply_instructions instruction.instruction_list) c ref then
              ((acc.1.apply_instructions instruction.instruction_list).reverse_instructions
                  instruction.instruction_list, acc.2.1, acc.2.2 ++ [instruction])
            else
              ((acc.1.apply_instructions instruction.instruction_list).reverse_instructions
                  instruction.instruction_list, acc.2.1 ++ [instruction], acc.2.2))
          (s, nexts, finals) = t.foldl (fun acc instruction =>
            if cannot_use_move (acc.1.apply_instructions instruction.instruction_list) c ref then
              ((acc.1.apply_instructions instruction.instruction_list).reverse_instructions
                  instruction.instruction_list, acc.2.1, acc.2.2 ++ [instruction])
            else
              ((acc.1.apply_instructions instruction.instruction_list).reverse_instructions
                  instruction.instruction_list, acc.2.1 ++ [instruction], acc.2.2))
          (s, nexts ++ [b], finals) := by
        rw [List.foldl_cons]
        congr 1
        show (if cannot_use_move (s.apply_instructions b.instruction_list) c ref then
            ((s.apply_instructions b.instruction_list).reverse_instructions
                b.instruction_list, nexts, finals ++ [b])
          else
            ((s.apply_instructions b.instruction_list).reverse_instructions
                b.instruction_list, nexts ++ [b], finals)) = (s, nexts ++ [b], finals)
        rw [if_neg hcu, hbrev]
      rw [key]
      have hnx2 : AllRevert (nexts ++ [b]) s := by
        intro x hx
        rcases List.mem_append.mp hx with h | h
        · exact hnx x h
        · simp only [List.mem_singleton] at h
          subst h
          exact hbr _ (by simp)
      obtain ⟨h1, h2, h3⟩ := ih (nexts ++ [b]) finals (fun x hx => hbr x (by simp [hx])) hnx2
      refine ⟨h1, h2, ?_⟩
      rw [h3, totalPct_append, totalPct_singleton, totalPct_cons]
      ring

theorem filter_spec (s : State) (c : Choice) (ref : SideReference)
    (branches : List StateInstructions) (hbr : AllRevert branches s) :
    (filter_cannot_use_move_branches s c ref branches).1 = s ∧
    AllRevert (filter_cannot_use_move_branches s c ref branches).2.1 s ∧
    totalPct (filter_cannot_use_move_branches s c ref branches).2.1 +
      totalPct (filter_cannot_use_move_branches s c ref branches).2.2 =
      totalPct branches := by
  have h := filter_aux c ref s branches [] [] hbr (by intro x hx; simp at hx)
  refine ⟨h.1, h.2.1, ?_⟩
  have h3 := h.2.2
  rw [totalPct_nil, zero_add, zero_add] at h3
  exact h3

theorem run_hit_miss_aux (hooks : Hooks) (c : Choice) (ref : SideReference) (s : State) :
    ∀ (branches hits frzs : List StateInstructions), AllRevert branches s →
      AllRevert hits s →
      (branches.foldl (fun acc instruction =>
          ((check_move_hit_or_miss hooks acc.1 c ref instruction).1,
            acc.2.1 ++ [(check_move_hit_or_miss hooks acc.1 c ref instruction).2.1],
            acc.2.2 ++ (check_move_hit_or_miss hooks acc.1 c ref instruction).2.2))
        (s, hits, frzs)).1 = s ∧
      AllRevert (branches.foldl (fun acc instruction =>
          ((check_move_hit_or_miss hooks acc.1 c ref instruction).1,
            acc.2.1 ++ [(check_move_hit_or_miss hooks acc.1 c ref instruction).2.1],
            acc.2.2 ++ (check_move_hit_or_miss hooks acc.1 c ref instruction).2.2))
        (s, hits, frzs)).2.1 s ∧
      (0 < c.accuracy → c.accuracy ≤ 100 →
        totalPct (branches.foldl (fun acc instruction =>
            ((check_move_hit_or_miss hooks acc.1 c ref instruction).1,
              acc.2.1 ++ [(check_move_hit_or_miss hooks acc.1 c ref instruction).2.1],
              acc.2.2 ++ (check_move_hit_or_miss hooks acc.1 c ref instruction).2.2))
          (s, hits, frzs)).2.1 +
        totalPct (branches.foldl (fun acc instruction =>
            ((check_move_hit_or_miss hooks acc.1 c ref instruction).1,
              acc.2.1 ++ [(check_move_hit_or_miss hooks acc.1 c ref instruction).2.1],
              acc.2.2 ++ (check_move_hit_or_miss hooks acc.1 c ref instruction).2.2))
          (s, hits, frzs)).2.2 =
        totalPct hits + totalPct frzs + totalPct branches) := by
  intro branches
  induction branches with
  | nil =>
    intro hits frzs _ hh
    exact ⟨rfl, hh, fun _ _ => by simp [totalPct_nil]⟩
  | cons b t ih =>
    intro hits frzs hbr hh
    obtain ⟨hfst, hhit, hpct⟩ := hit_or_miss_spec hooks s c ref b (hbr b (by simp))
    have key : (b :: t).foldl (fun acc instruction =>
          ((check_move_hit_or_miss hooks acc.1 c ref instruction).1,
            acc.2.1 ++ [(check_move_hit_or_miss hooks acc.1 c ref instruction).2.1],
            acc.2.2 ++ (check_move_hit_or_miss hooks acc.1 c ref instruction).2.2))
        (s, hits, frzs) = t.foldl (fun acc instruction =>
          ((check_move_hit_or_miss hooks acc.1 c ref instruction).1,
            acc.2.1 ++ [(check_move_hit_or_miss hooks acc.1 c ref instruction).2.1],
            acc.2.2 ++ (check_move_hit_or_miss hooks acc.1 c ref instruction).2.2))
        (s, hits ++ [(check_move_hit_or_miss hooks s c ref b).2.1],
          frzs ++ (check_move_hit_or_miss hooks s c ref b).2.2) := by
      rw [List.foldl_cons]
      congr 1
      show ((check_move_hit_or_miss hooks s c ref b).1,
          hits ++ [(check_move_hit_or_miss hooks s c ref b).2.1],
          frzs ++ (check_move_hit_or_miss hooks s c ref b).2.2) = _
      rw [hfst]
    rw [key]
    have hh2 : AllRevert (hits ++ [(check_move_hit_or_miss hooks s c ref b).2.1]) s := by
      intro x hx
      rcases List.mem_append.mp hx with h | h
      · exact hh x h
      · simp only [List.mem_singleton] at h
        subst h
        exact hhit
    obtain ⟨h1, h2, h3⟩ := ih _ _ (fun x hx => hbr x (by simp [hx])) hh2
    refine ⟨h1, h2, fun h0 h100 => ?_⟩
    rw [h3 h0 h100, totalPct_append, totalPct_singleton, totalPct_append, totalPct_cons]
    have := hpct h0 h100
    linarith

theorem run_hit_miss_spec (hooks : Hooks) (s : State) (c : Choice) (ref : SideReference)
    (branches : List StateInstructions) (hbr : AllRevert branches s) :
    (run_move_hit_or_miss hooks s c ref branches).1 = s ∧
    AllRevert (run_move_hit_or_miss hooks s c ref branches).2.1 s ∧
    (0 < c.accuracy → c.accuracy ≤ 100 →
      totalPct (run_move_hit_or_miss hooks s c ref branches).2.1 +
        totalPct (run_move_hit_or_miss hooks s c ref branches).2.2 = totalPct branches) := by
  have h := run_hit_miss_aux hooks c ref s branches [] [] hbr (by intro x hx; simp at hx)
  refine ⟨h.1, h.2.1, fun h0 h100 => ?_⟩
  have h3 := h.2.2 h0 h100
  rw [totalPct_nil, zero_add, zero_add] at h3
  exact h3

theorem run_damage_inner_aux (hooks : Hooks) (c : Choice) (ref : SideReference) (s : State)
    (damages : List Int) (b : StateInstructions)
    (hb : RevertsFrom b.instruction_list s) (hhooks : HooksRevert hooks) :
    ∀ (d : List Int) (outs : List StateInstructions), AllRevert outs s →
      (d.foldl (fun acc2 dmg =>
          ((generate_instructions_from_damage hooks acc2.1 c dmg ref
            (b.update_percentage (1 / (damages.length : ℚ)))).1,
            acc2.2 ++ (generate_instructions_from_damage hooks acc2.1 c dmg ref
              (b.update_percentage (1 / (damages.length : ℚ)))).2))
        (s, outs)).1 = s ∧
      AllRevert (d.foldl (fun acc2 dmg =>
          ((generate_instructions_from_damage hooks acc2.1 c dmg ref
            (b.update_percentage (1 / (damages.length : ℚ)))).1,
            acc2.2 ++ (generate_instructions_from_damage hooks acc2.1 c dmg ref
              (b.update_percentage (1 / (damages.length : ℚ)))).2))
        (s, outs)).2 s ∧
      totalPct (d.foldl (fun acc2 dmg =>
          ((generate_instructions_from_damage hooks acc2.1 c dmg ref
            (b.update_percentage (1 / (damages.length : ℚ)))).1,
            acc2.2 ++ (generate_instructions_from_damage hooks acc2.1 c dmg ref
              (b.update_percentage (1 / (damages.length : ℚ)))).2))
        (s, outs)).2 = totalPct outs + (d.length : ℚ) *
          (if 0 < c.accuracy / 100 then
            b.percentage * (1 / (damages.length : ℚ)) else 0) := by
  intro d
  induction d with
  | nil =>
    intro outs houts
    exact ⟨rfl, houts, by simp⟩
  | cons dmg rest ih =>
    intro outs houts
    obtain ⟨hfst, hall, hpct⟩ := damage_spec hooks s c dmg ref
      (b.update_percentage (1 / (damages.length : ℚ))) hb hhooks
    have key : (dmg :: rest).foldl (fun acc2 d2 =>
          ((generate_instructions_from_damage hooks acc2.1 c d2 ref
            (b.update_percentage (1 / (damages.length : ℚ)))).1,
            acc2.2 ++ (generate_instructions_from_damage hooks acc2.1 c d2 ref
              (b.update_percentage (1 / (damages.length : ℚ)))).2))
        (s, outs) = rest.foldl (fun acc2 d2 =>
          ((generate_instructions_from_damage hooks acc2.1 c d2 ref
            (b.update_percentage (1 / (damages.length : ℚ)))).1,
            acc2.2 ++ (generate_instructions_from_damage hooks acc2.1 c d2 ref
              (b.update_percentage (1 / (damages.length : ℚ)))).2))
        (s, outs ++ (generate_instructions_from_damage hooks s c dmg ref
          (b.update_percentage (1 / (damages.length : ℚ)))).2) := by
      rw [List.foldl_cons]
      congr 1
      show ((generate_instructions_from_damage hooks s c dmg ref
          (b.update_percentage (1 / (damages.length : ℚ)))).1,
          outs ++ (generate_instructions_from_damage hooks s c dmg ref
            (b.update_percentage (1 / (damages.length : ℚ)))).2) = _
      rw [hfst]
    rw [key]
    have houts2 : AllRevert (outs ++ (generate_instructions_from_damage hooks s c dmg ref
        (b.update_percentage (1 / (damages.length : ℚ)))).2) s := by
      intro x hx
      rcases List.mem_append.mp hx with h | h
      · exact houts x h
      · exact hall x h
    obtain ⟨h1, h2, h3⟩ := ih (outs ++ _) houts2
    refine ⟨h1, h2, ?_⟩
    rw [h3, totalPct_append, hpct]
    have : ((StateInstructions.update_percentage b (1 / (damages.length : ℚ))).percentage) =
        b.percentage * (1 / (damages.length : ℚ)) := rfl
    rw [this]
    simp only [List.length_cons]
    push_cast
    split <;> ring

theorem run_damage_outer_aux (hooks : Hooks) (c : Choice) (ref : SideReference) (s : State)
    (damages : List Int) (hhooks : HooksRevert hooks) :
    ∀ (branches outs : List StateInstructions), AllRevert branches s → AllRevert outs s →
      (branches.foldl (fun acc instruction =>
          damages.foldl (fun acc2 dmg =>
            ((generate_instructions_from_damage hooks acc2.1 c dmg ref
              (instruction.update_percentage (1 / (damages.length : ℚ)))).1,
              acc2.2 ++ (generate_instructions_from_damage hooks acc2.1 c dmg ref
                (instruction.update_percentage (1 / (damages.length : ℚ)))).2)) acc)
        (s, outs)).1 = s ∧
      AllRevert (branches.foldl (fun acc instruction =>
          damages.foldl (fun acc2 dmg =>
            ((generate_instructions_from_damage hooks acc2.1 c dmg ref
              (instruction.update_percentage (1 / (damages.length : ℚ)))).1,
              acc2.2 ++ (generate_instructions_from_damage hooks acc2.1 c dmg ref
                (instruction.update_percentage (1 / (damages.length : ℚ)))).2)) acc)
        (s, outs)).2 s ∧
      totalPct (branches.foldl (fun acc instruction =>
          damages.foldl (fun acc2 dmg =>
            ((generate_instructions_from_damage hooks acc2.1 c dmg ref
              (instruction.update_percentage (1 / (damages.length : ℚ)))).1,
              acc2.2 ++ (generate_instructions_from_damage hooks acc2.1 c dmg ref
                (instruction.update_percentage (1 / (damages.length : ℚ)))).2)) acc)
        (s, outs)).2 = totalPct outs +
          (if 0 < c.accuracy / 100 then
            ((damages.length : ℚ) * (1 / (damages.length : ℚ))) * totalPct branches
          else 0) := by
  intro branches
  induction branches with
  | nil =>
    intro outs _ houts
    refine ⟨rfl, houts, ?_⟩
    simp only [List.foldl_nil, totalPct_nil]
    split <;> ring
  | cons b t ih =>
    intro outs hbr houts
    obtain ⟨h1i, h2i, h3i⟩ := run_damage_inner_aux hooks c ref s damages b
      (hbr b (by simp)) hhooks damages outs houts
    have key : (b :: t).foldl (fun acc instruction =>
          damages.foldl (fun acc2 dmg =>
            ((generate_instructions_from_damage hooks acc2.1 c dmg ref
              (instruction.update_percentage (1 / (damages.length : ℚ)))).1,
              acc2.2 ++ (generate_instructions_from_damage hooks acc2.1 c dmg ref
                (instruction.update_percentage (1 / (damages.length : ℚ)))).2)) acc)
        (s, outs) = t.foldl (fun acc instruction =>
          damages.foldl (fun acc2 dmg =>
            ((generate_instructions_from_damage hooks acc2.1 c dmg ref
              (instruction.update_percentage (1 / (damages.length : ℚ)))).1,
              acc2.2 ++ (generate_instructions_from_damage hooks acc2.1 c dmg ref
                (instruction.update_percentage (1 / (damages.length : ℚ)))).2)) acc)
        (s, (damages.foldl (fun acc2 dmg =>
            ((generate_instructions_from_damage hooks acc2.1 c dmg ref
              (b.update_percentage (1 / (damages.length : ℚ)))).1,
              acc2.2 ++ (generate_instructions_from_damage hooks acc2.1 c dmg ref
                (b.update_percentage (1 / (damages.length : ℚ)))).2)) (s, outs)).2) := by
      rw [List.foldl_cons]
      congr 1
      exact Prod.ext h1i rfl
    rw [key]
    obtain ⟨h1, h2, h3⟩ := ih _ (fun x hx => hbr x (by simp [hx])) h2i
    refine ⟨h1, h2, ?_⟩
    rw [h3, h3i, totalPct_cons]
    split <;> ring
  

theorem run_damage_spec (hooks : Hooks) (s : State) (c : Choice) (ref : SideReference)
    (damages : List Int) (branches : List StateInstructions)
    (hbr : AllRevert branches s) (hhooks : HooksRevert hooks) :
    (run_damage_generation hooks s c ref damages branches).1 = s ∧
    AllRevert (run_damage_generation hooks s c ref damages branches).2 s ∧
    (damages ≠ [] →
      totalPct (run_damage_generation hooks s c ref damages branches).2 =
        (if 0 < c.accuracy / 100 then totalPct branches else 0)) := by
  have h := run_damage_outer_aux hooks c ref s damages hhooks branches [] hbr
    (by intro x hx; simp at hx)
  refine ⟨h.1, h.2.1, fun hne => ?_⟩
  have h3 := h.2.2
  rw [totalPct_nil, zero_add] at h3
  have hlen : ((damages.length : ℚ)) ≠ 0 := by
    simp [List.length_eq_zero]
    exact hne
  have : ((damages.length : ℚ) * (1 / (damages.length : ℚ))) = 1 := by
    field_simp
  rw [this] at h3
  exact h3.trans (by split <;> ring)

theorem merge_duplicate_into_pct (res : List StateInstructions) (i1 : StateInstructions) :
    totalPct (merge_duplicate_into res i1) = totalPct res + i1.percentage := by
  induction res with
  | nil => simp [merge_duplicate_into, totalPct]
  | cons r rest ih =>
    simp only [merge_duplicate_into]
    split
    · rw [totalPct_cons, totalPct_cons]
      simp only []
      ring
    · rw [totalPct_cons, totalPct_cons, ih]
      ring

theorem combine_fold_pct : ∀ (rest acc : List StateInstructions),
    totalPct (rest.foldl merge_duplicate_into acc) = totalPct acc + totalPct rest := by
  intro rest
  induction rest with
  | nil => intro acc; simp [totalPct_nil]
  | cons r t ih =>
    intro acc
    rw [List.foldl_cons, ih, merge_duplicate_into_pct, totalPct_cons]
    ring

theorem combine_pct (l : List StateInstructions) :
    totalPct (combine_duplicate_instructions l) = totalPct l := by
  cases l with
  | nil => rfl
  | cons first rest =>
    simp only [combine_duplicate_instructions]
    rw [combine_fold_pct, totalPct_singleton, totalPct_cons]

theorem before_move_univ (hooks : Hooks) (s : State) (c : Choice) (r : SideReference)
    (hhooks : HooksRevert hooks) :
    ∀ s₂, RevertsFrom (before_move hooks s c r) s₂ := by
  intro s₂
  unfold before_move
  rcases hf : hooks.ability_before_move ((s.get_side r).get_active.ability) with _ | f
  · simp only [hf]
    exact revertsFrom_nil _
  · simp only [hf]
    exact hhooks.1 _ f hf _ _ _ _

theorem update_choice_accuracy (hooks : Hooks) (s : State) (ac dc : Choice)
    (r : SideReference) (hp : ProbHooks hooks) (h0 : 0 < ac.accuracy)
    (h100 : ac.accuracy ≤ 100) :
    0 < (update_choice hooks s ac dc r).accuracy ∧
      (update_choice hooks s ac dc r).accuracy ≤ 100 := by
  obtain ⟨hp1, hp2, hp3, hp4, hp5, _⟩ := hp
  unfold update_choice
  rcases hc1 : hooks.choice_modify_move ac.move_id with _ | f1 <;>
    rcases hc2 : hooks.ability_modify_attack_being_used
      ((s.get_side r).get_active.ability) with _ | f2 <;>
    rcases hc3 : hooks.ability_modify_attack_against
      ((s.get_side r.get_other_side).get_active.ability) with _ | f3 <;>
    rcases hc4 : hooks.item_modify_attack_being_used
      ((s.get_side r).get_active.item) with _ | f4 <;>
    rcases hc5 : hooks.item_modify_attack_against
      ((s.get_side r.get_other_side).get_active.item) with _ | f5 <;>
    simp only [hc1, hc2, hc3, hc4, hc5] <;>
    first
      | exact ⟨(hp5 _ f5 hc5 _ _ _).1, (hp5 _ f5 hc5 _ _ _).2⟩
      | exact ⟨(hp4 _ f4 hc4 _ _ _).1, (hp4 _ f4 hc4 _ _ _).2⟩
      | exact ⟨(hp3 _ f3 hc3 _ _ _ _).1, (hp3 _ f3 hc3 _ _ _ _).2⟩
      | exact ⟨(hp2 _ f2 hc2 _ _ _ _).1, (hp2 _ f2 hc2 _ _ _ _).2⟩
      | exact ⟨(hp1 _ f1 hc1 _ _ _ _).1, (hp1 _ f1 hc1 _ _ _ _).2⟩
      | exact ⟨h0, h100⟩

set_option maxHeartbeats 2000000 in
theorem generator_master (hooks : Hooks) (s : State) (choice defender_choice : Choice)
    (side : SideReference) (inc : StateInstructions)
    (hrev : RevertsFrom inc.instruction_list s) (hhooks : HooksRevert hooks) :
    (generate_instructions_from_move hooks s choice defender_choice side inc).1 = s ∧
    (ProbHooks hooks → 0 < choice.accuracy → choice.accuracy ≤ 100 →
      totalPct (generate_instructions_from_move hooks s choice defender_choice side inc).2 =
        inc.percentage) := by
  unfold generate_instructions_from_move
  split
  · obtain ⟨h1, l, h2⟩ := switch_spec s choice.switch_id side inc hrev
    exact ⟨h1, fun _ _ _ => by rw [h2, totalPct_singleton]⟩
  · split
    · exact ⟨rfl, fun _ _ _ => totalPct_singleton _⟩
    · simp only []
      split
      · exact ⟨hrev, fun _ _ _ => totalPct_singleton _⟩
      · rename_i hcat hdrag hhp
        generalize hC : update_choice hooks (s.apply_instructions inc.instruction_list)
          choice defender_choice side = c1
        generalize hB : before_move hooks (s.apply_instructions inc.instruction_list) c1
          side = bm
        generalize hI : StateInstructions.mk inc.percentage
          (inc.instruction_list ++ bm) = inc1
        generalize hD : hooks.calculate_damage
          ((s.apply_instructions inc.instruction_list).apply_instructions bm) side c1 = damage
        have hbmu : ∀ s₂, RevertsFrom bm s₂ := by
          rw [← hB]
          exact fun s₂ => before_move_univ hooks _ _ _ hhooks s₂
        have hrev1 : RevertsFrom inc1.instruction_list s := by
          rw [← hI]
          exact revertsFrom_append_univ hrev hbmu
        have hs3 : ((s.apply_instructions inc.instruction_list).apply_instructions
            bm).reverse_instructions (inc.instruction_list ++ bm) = s := by
          rw [← apply_instructions_append]
          exact revertsFrom_append_univ hrev hbmu
        rw [hs3]
        obtain ⟨hr1s, hr1all, hr1pct⟩ := status_conditions_spec s side inc1 hrev1
        rw [hr1s]
        obtain ⟨hr2s, hr2all, hr2pct⟩ := filter_spec s c1 side
          (generate_instructions_from_existing_status_conditions s side inc1).2.1 hr1all
        rw [hr2s]
        obtain ⟨hr3s, hr3all, hr3pct⟩ := run_gen_spec
          generate_instructions_from_move_special_effect s c1 side
          (filter_cannot_use_move_branches s c1 side
            (generate_instructions_from_existing_status_conditions s side inc1).2.1).2.1
          (fun inc2 h => ⟨rfl, h, rfl⟩) hr2all
        rw [hr3s]
        obtain ⟨hr4s, hr4all, hr4pct⟩ := run_hit_miss_spec hooks s c1 side
          (run_instruction_generation_fn_for_move_hit
            generate_instructions_from_move_special_effect s c1 side
            (filter_cannot_use_move_branches s c1 side
              (generate_instructions_from_existing_status_conditions s side inc1).2.1).2.1).2
          hr3all
        rw [hr4s]
        rcases damage with _ | d
        all_goals simp only []
        · -- no damage rolls
          obtain ⟨h6s, h6all, h6pct⟩ := run_gen_spec
            (fun s c ref i => generate_instructions_from_side_conditions s c ref i)
            s c1 side _ (fun inc2 h => side_conditions_spec s c1 side inc2 h) hr4all
          rw [h6s]
          obtain ⟨h7s, h7all, h7pct⟩ := run_gen_spec
            (get_instructions_from_hazard_clearing_moves hooks) s c1 side _
            (fun inc2 h => hazard_clearing_spec hooks s c1 side inc2 h hhooks) h6all
          rw [h7s]
          obtain ⟨h8s, h8all, h8pct⟩ := run_gen_spec
            (fun s c ref i => get_instructions_from_volatile_statuses s c ref i) s c1 side _
            (fun inc2 h => volatile_statuses_spec s c1 side inc2 h) h7all
          rw [h8s]
          obtain ⟨h9s, h9all, h9pct⟩ := run_gen_spec
            (get_instructions_from_status_effects hooks) s c1 side _
            (fun inc2 h => status_effects_spec hooks s c1 side inc2 h) h8all
          rw [h9s]
          obtain ⟨h10s, h10all, h10pct⟩ := run_gen_spec
            (get_instructions_from_boosts hooks) s c1 side _
            (fun inc2 h => boosts_spec hooks s c1 side inc2 h) h9all
          rw [h10s]
          obtain ⟨h11s, h11all, h11pct⟩ := run_gen_spec
            (fun s c ref i => get_instructions_from_heal s c ref i) s c1 side _
            (fun inc2 h => heal_spec s c1 side inc2 h) h10all
          rw [h11s]
          refine ⟨rfl, fun hp h0 h100 => ?_⟩
          have hacc := update_choice_accuracy hooks (s.apply_instructions inc.instruction_list)
            choice defender_choice side hp h0 h100
          rw [hC] at hacc
          obtain ⟨h0c, h100c⟩ := hacc
          have hIpct : inc1.percentage = inc.percentage := by rw [← hI]
          rw [combine_pct, totalPct_append, totalPct_append, totalPct_append]
          have h4 := hr4pct h0c h100c
          linarith [hr1pct, hr2pct, hr3pct, h4, h11pct, h10pct, h9pct, h8pct, h7pct, h6pct,
            hIpct]
        · -- some damage rolls
          obtain ⟨hr5s, hr5all, hr5pct⟩ := run_damage_spec hooks s c1 side d _ hr4all hhooks
          rw [hr5s]
          obtain ⟨h6s, h6all, h6pct⟩ := run_gen_spec
            (fun s c ref i => generate_instructions_from_side_conditions s c ref i)
            s c1 side _ (fun inc2 h => side_conditions_spec s c1 side inc2 h) hr5all
          rw [h6s]
          obtain ⟨h7s, h7all, h7pct⟩ := run_gen_spec
            (get_instructions_from_hazard_clearing_moves hooks) s c1 side _
            (fun inc2 h => hazard_clearing_spec hooks s c1 side inc2 h hhooks) h6all
          rw [h7s]
          obtain ⟨h8s, h8all, h8pct⟩ := run_gen_spec
            (fun s c ref i => get_instructions_from_volatile_statuses s c ref i) s c1 side _
            (fun inc2 h => volatile_statuses_spec s c1 side inc2 h) h7all
          rw [h8s]
          obtain ⟨h9s, h9all, h9pct⟩ := run_gen_spec
            (get_instructions_from_status_effects hooks) s c1 side _
            (fun inc2 h => status_effects_spec hooks s c1 side inc2 h) h8all
          rw [h9s]
          obtain ⟨h10s, h10all, h10pct⟩ := run_gen_spec
            (get_instructions_from_boosts hooks) s c1 side _
            (fun inc2 h => boosts_spec hooks s c1 side inc2 h) h9all
          rw [h10s]
          obtain ⟨h11s, h11all, h11pct⟩ := run_gen_spec
            (fun s c ref i => get_instructions_from_heal s c ref i) s c1 side _
            (fun inc2 h => heal_spec s c1 side inc2 h) h10all
          rw [h11s]
          refine ⟨rfl, fun hp h0 h100 => ?_⟩
          have hacc := update_choice_accuracy hooks (s.apply_instructions inc.instruction_list)
            choice defender_choice side hp h0 h100
          rw [hC] at hacc
          obtain ⟨h0c, h100c⟩ := hacc
          have hIpct : inc1.percentage = inc.percentage := by rw [← hI]
          have hne : d ≠ [] := hp.2.2.2.2.2 _ _ _ _ hD
          have hph : (0 : ℚ) < c1.accuracy / 100 := div_pos h0c (by norm_num)
          have h5 := hr5pct hne
          rw [if_pos hph] at h5
          rw [combine_pct, totalPct_append, totalPct_append, totalPct_append]
          have h4 := hr4pct h0c h100c
          linarith [hr1pct, hr2pct, hr3pct, h4, h5, h11pct, h10pct, h9pct, h8pct, h7pct,
            h6pct, hIpct]

/-- C1: for every state and incoming `StateInstructions` (satisfying the
spec's delta-reversibility contract) and every hook table (satisfying the
spec's hook contract), `generate_instructions_from_move` — including its
switch short-circuit and the early returns for a second-moving drag choice
and a fainted attacker — returns with the state exactly equal to the state
it was given: every `apply_instructions` is paired with a matching
`reverse_instructions` on every exit path. -/
theorem c1_generator_restores_state (hooks : Hooks) (s : State)
    (choice defender_choice : Choice) (side : SideReference) (inc : StateInstructions)
    (hrev : RevertsFrom inc.instruction_list s) (hhooks : HooksRevert hooks) :
    (generate_instructions_from_move hooks s choice defender_choice side inc).1 = s :=
  (generator_master hooks s choice defender_choice side inc hrev hhooks).1

/-- Witness for C1 at a concrete state, choice and empty hook table. -/
theorem c1_generator_restores_state_witness :
    (generate_instructions_from_move emptyHooks testState defaultChoice defaultChoice
      SideReference.SideOne StateInstructions.default).1 = testState :=
  c1_generator_restores_state emptyHooks testState defaultChoice defaultChoice
    SideReference.SideOne StateInstructions.default rfl
    ⟨fun _ f h => Option.noConfusion h, fun _ f h => Option.noConfusion h,
      fun _ f h => Option.noConfusion h, fun _ f h => Option.noConfusion h⟩

/-- C2 counterexample: a non-damaging choice with accuracy 0 on the certain
incoming branch produces a branch set whose percentages sum to 200, not to
the incoming 100 (the accuracy stage scales the miss branch by `1 - 0` but
leaves the hit branch unscaled), so the claimed sum-to-incoming property
fails even with the 1e-3 tolerance. -/
theorem c2_counterexample :
    ¬ (|totalPct (generate_instructions_from_move emptyHooks testState accuracyZeroChoice
        defaultChoice SideReference.SideOne StateInstructions.default).2 -
      StateInstructions.default.percentage| ≤ 1 / 1000) := by
  have h : totalPct (generate_instructions_from_move emptyHooks testState accuracyZeroChoice
      defaultChoice SideReference.SideOne StateInstructions.default).2 = 200 := by
    have hph : ¬((0 : ℚ) / 100 > 0) := by norm_num
    have hlt : (0 : ℚ) / 100 < 1 := by norm_num
    simp [generate_instructions_from_move, update_choice, before_move, emptyHooks,
      generate_instructions_from_existing_status_conditions, filter_cannot_use_move_branches,
      cannot_use_move, run_instruction_generation_fn_for_move_hit,
      generate_instructions_from_move_special_effect, run_move_hit_or_miss,
      check_move_hit_or_miss, run_damage_generation, generate_instructions_from_side_conditions,
      get_instructions_from_hazard_clearing_moves, get_instructions_from_volatile_statuses,
      get_instructions_from_status_effects, get_instructions_from_boosts,
      get_instructions_from_heal, combine_duplicate_instructions, merge_duplicate_into,
      StateInstructions.update_percentage, StateInstructions.default, State.apply_instructions,
      State.reverse_instructions, State.get_side, Side.get_active, testState, testSide,
      testPokemon, accuracyZeroChoice, defaultChoice, totalPct, Pokemon.has_type,
      defaultPokemon, testMove, hph, hlt]
    norm_num
  rw [h]
  norm_num [StateInstructions.default]

/-- C2 (amended): provided the choice's accuracy (and the accuracy of any
hook-modified choice) lies in `(0, 100]` and damage-roll sets are nonempty,
the percentages of the branch set returned by
`generate_instructions_from_move` sum exactly to the incoming branch's
percentage: every brancher scales its sub-branches so they sum to the
incoming probability, and `combine_duplicate_instructions` preserves the
total by summing the percentages of branches with equal instruction
lists. -/
theorem c2_branch_probabilities_sum (hooks : Hooks) (s : State)
    (choice defender_choice : Choice) (side : SideReference) (inc : StateInstructions)
    (hrev : RevertsFrom inc.instruction_list s) (hhooks : HooksRevert hooks)
    (hp : ProbHooks hooks) (h0 : 0 < choice.accuracy) (h100 : choice.accuracy ≤ 100) :
    totalPct (generate_instructions_from_move hooks s choice defender_choice side inc).2 =
      inc.percentage :=
  (generator_master hooks s choice defender_choice side inc hrev hhooks).2 hp h0 h100

/-- Witness for C2 (amended) at a concrete state and the plain
100-accuracy choice. -/
theorem c2_branch_probabilities_sum_witness :
    totalPct (generate_instructions_from_move emptyHooks testState defaultChoice
      defaultChoice SideReference.SideOne StateInstructions.default).2 =
      StateInstructions.default.percentage :=
  c2_branch_probabilities_sum emptyHooks testState defaultChoice defaultChoice
    SideReference.SideOne StateInstructions.default rfl
    ⟨fun _ f h => Option.noConfusion h, fun _ f h => Option.noConfusion h,
      fun _ f h => Option.noConfusion h, fun _ f h => Option.noConfusion h⟩
    ⟨fun _ f h => Option.noConfusion h, fun _ f h => Option.noConfusion h,
      fun _ f h => Option.noConfusion h, fun _ f h => Option.noConfusion h,
      fun _ f h => Option.noConfusion h, fun _ _ _ _ h => Option.noConfusion h⟩
    (by norm_num [defaultChoice]) (by norm_num [defaultChoice])

/-- C7: the pre-move status brancher splits an incoming branch of
probability `p` exactly as claimed: Paralyze into a `0.25·p` frozen branch
with no added deltas and a `0.75·p` proceeding branch; Freeze into a
`0.20·p` proceeding branch carrying a `ChangeStatus`-to-None delta and a
`0.80·p` frozen branch; Sleep into `0.33·p` proceeding with
`ChangeStatus`-to-None and `0.67·p` frozen; any other status passes the
branch through unchanged. -/
theorem c7_existing_status_branching (s : State) (side : SideReference)
    (inc : StateInstructions) :
    ((((s.apply_instructions inc.instruction_list).get_side side).get_active.status =
        PokemonStatus.Paralyze →
      (generate_instructions_from_existing_status_conditions s side inc).2.1 =
        [{ percentage := 0.75 * inc.percentage, instruction_list := inc.instruction_list }] ∧
      (generate_instructions_from_existing_status_conditions s side inc).2.2 =
        [{ percentage := 0.25 * inc.percentage, instruction_list := inc.instruction_list }]) ∧
    (((s.apply_instructions inc.instruction_list).get_side side).get_active.status =
        PokemonStatus.Freeze →
      (generate_instructions_from_existing_status_conditions s side inc).2.1 =
        [{ percentage := 0.20 * inc.percentage,
           instruction_list := inc.instruction_list ++
             [Instruction.ChangeStatus side
               ((s.apply_instructions inc.instruction_list).get_side side).active_index
               PokemonStatus.Freeze PokemonStatus.None] }] ∧
      (generate_instructions_from_existing_status_conditions s side inc).2.2 =
        [{ percentage := 0.80 * inc.percentage, instruction_list := inc.instruction_list }]) ∧
    (((s.apply_instructions inc.instruction_list).get_side side).get_active.status =
        PokemonStatus.Sleep →
      (generate_instructions_from_existing_status_conditions s side inc).2.1 =
        [{ percentage := 0.33 * inc.percentage,
           instruction_list := inc.instruction_list ++
             [Instruction.ChangeStatus side
               ((s.apply_instructions inc.instruction_list).get_side side).active_index
               PokemonStatus.Sleep PokemonStatus.None] }] ∧
      (generate_instructions_from_existing_status_conditions s side inc).2.2 =
        [{ percentage := 0.67 * inc.percentage, instruction_list := inc.instruction_list }]) ∧
    (((s.apply_instructions inc.instruction_list).get_side side).get_active.status ≠
        PokemonStatus.Paralyze →
      ((s.apply_instructions inc.instruction_list).get_side side).get_active.status ≠
        PokemonStatus.Freeze →
      ((s.apply_instructions inc.instruction_list).get_side side).get_active.status ≠
        PokemonStatus.Sleep →
      (generate_instructions_from_existing_status_conditions s side inc).2.1 = [inc] ∧
      (generate_instructions_from_existing_status_conditions s side inc).2.2 = [])) := by
  refine ⟨?_, ?_, ?_, ?_⟩
  · intro h
    simp only [generate_instructions_from_existing_status_conditions, h,
      StateInstructions.update_percentage]
    constructor
    · congr 1
      · ring
    · congr 2
      ring
  · intro h
    simp only [generate_instructions_from_existing_status_conditions, h,
      StateInstructions.update_percentage]
    constructor
    · congr 1
      ring
    · congr 2
      ring
  · intro h
    simp only [generate_instructions_from_existing_status_conditions, h,
      StateInstructions.update_percentage]
    constructor
    · congr 1
      ring
    · congr 2
      ring
  · intro h1 h2 h3
    rcases hst : ((s.apply_instructions inc.instruction_list).get_side side).get_active.status
    all_goals
      simp only [generate_instructions_from_existing_status_conditions, hst]
    all_goals first
      | exact ⟨trivial, trivial⟩
      | exact absurd hst (by assumption)

/-- Witness for C7 at a concrete paralyzed attacker. -/
theorem c7_existing_status_branching_witness :
    (generate_instructions_from_existing_status_conditions paralyzedState
      SideReference.SideOne StateInstructions.default).2.1 =
      [{ percentage := 0.75 * 100, instruction_list := [] }] ∧
    (generate_instructions_from_existing_status_conditions paralyzedState
      SideReference.SideOne StateInstructions.default).2.2 =
      [{ percentage := 0.25 * 100, instruction_list := [] }] :=
  (c7_existing_status_branching paralyzedState SideReference.SideOne
    StateInstructions.default).1 (by decide)

/-! The row-minimum fold of `pick_safest`. -/

theorem spec_row_min_eq_clean (l : List (Option ℚ)) (base cols : Nat) :
    spec_row_min l base cols = cleanRowMin l base cols := by
  unfold spec_row_min cleanRowMin
  generalize (List.range cols).filterMap (fun j => l.getD (base + j) none) = r
  induction r with
  | nil => rfl
  | cons a r ih =>
    exact congrArg (fun z => min ((a : ℚ) : WithTop ℚ) z) ih

theorem if_lt_eq_min (q w : WithTop ℚ) : (if q < w then q else w) = min q w := by
  by_cases h : q < w
  · rw [if_pos h, min_eq_left h.le]
  · rw [if_neg h, min_eq_right (not_lt.mp h)]

theorem foldr_min_comm (xs : List ℚ) : ∀ (q w : WithTop ℚ),
    List.foldr (fun (a : ℚ) (acc : WithTop ℚ) => min (a : WithTop ℚ) acc) (min q w) xs =
      min q (List.foldr (fun (a : ℚ) (acc : WithTop ℚ) => min (a : WithTop ℚ) acc) w xs) := by
  induction xs with
  | nil => intro q w; rfl
  | cons a xs ih =>
    intro q w
    simp only [List.foldr_cons, ih]
    rw [min_left_comm]

theorem fold_min_aux (f : Nat → Option ℚ) : ∀ (r : List Nat) (w : WithTop ℚ),
    List.foldl (fun w j => match f j with
      | none => w
      | some q => if (q : WithTop ℚ) < w then (q : WithTop ℚ) else w) w r =
      List.foldr (fun (q : ℚ) (acc : WithTop ℚ) => min (q : WithTop ℚ) acc) w
        (r.filterMap f) := by
  intro r
  induction r with
  | nil => intro w; rfl
  | cons j r ih =>
    intro w
    rcases hf : f j with _ | q
    · simp only [List.foldl_cons, List.filterMap_cons, hf]
      exact ih w
    · simp only [List.foldl_cons, List.filterMap_cons, hf]
      rw [if_lt_eq_min, ih, foldr_min_comm, List.foldr_cons]

theorem row_worst_case_eq_spec_row_min (l : List (Option ℚ)) (base cols : Nat) :
    row_worst_case l base cols = spec_row_min l base cols := by
  rw [spec_row_min_eq_clean]
  unfold row_worst_case cleanRowMin
  exact fold_min_aux (fun j => l.getD (base + j) none) (List.range cols) ⊤

theorem pick_safest_step (l : List (Option ℚ)) (cols m : Nat) :
    pick_safest l (m + 1) cols =
      (if (pick_safest l m cols).2 <
          ((row_worst_case l (m * cols) cols : WithTop ℚ) : WithBot (WithTop ℚ)) then
        (m, ((row_worst_case l (m * cols) cols : WithTop ℚ) : WithBot (WithTop ℚ)))
      else pick_safest l m cols) := by
  unfold pick_safest
  rw [List.range_succ, List.foldl_append, List.foldl_cons, List.foldl_nil]

theorem pick_safest_aux (l : List (Option ℚ)) (cols : Nat) : ∀ (n : Nat),
    (0 < n → ∃ i, i < n ∧ pick_safest l n cols =
      (i, ((row_worst_case l (i * cols) cols : WithTop ℚ) : WithBot (WithTop ℚ)))) ∧
    (∀ j, j < n → ((row_worst_case l (j * cols) cols : WithTop ℚ) : WithBot (WithTop ℚ)) ≤
      (pick_safest l n cols).2) := by
  intro n
  induction n with
  | zero =>
    exact ⟨fun h => absurd h (by omega), fun j hj => absurd hj (by omega)⟩
  | succ m ih =>
    rcases Nat.eq_zero_or_pos m with hm | hm
    · have hbot : (pick_safest l m cols).2 = ⊥ := by rw [hm]; rfl
      constructor
      · intro _
        refine ⟨m, by omega, ?_⟩
        rw [pick_safest_step, hbot, if_pos (WithBot.bot_lt_coe _)]
      · intro j hj
        have hj' : j = m := by omega
        subst hj'
        rw [pick_safest_step, hbot, if_pos (WithBot.bot_lt_coe _)]
    · obtain ⟨hex, hall⟩ := ih
      obtain ⟨i, hi, hfold⟩ := hex hm
      by_cases hlt : (pick_safest l m cols).2 <
          ((row_worst_case l (m * cols) cols : WithTop ℚ) : WithBot (WithTop ℚ))
      · constructor
        · intro _
          exact ⟨m, by omega, by rw [pick_safest_step, if_pos hlt]⟩
        · intro j hj
          rw [pick_safest_step, if_pos hlt]
          rcases Nat.lt_succ_iff_lt_or_eq.mp hj with hj' | hj'
          · exact le_trans (hall j hj') (le_of_lt hlt)
          · subst hj'
            exact le_refl _
      · constructor
        · intro _
          refine ⟨i, by omega, ?_⟩
          rw [pick_safest_step, if_neg hlt]
          exact hfold
        · intro j hj
          rw [pick_safest_step, if_neg hlt]
          rcases Nat.lt_succ_iff_lt_or_eq.mp hj with hj' | hj'
          · exact hall j hj'
          · subst hj'
            exact not_lt.mp hlt

/-- C3: for every score vector and positive side-one option count,
`pick_safest` returns a row index below the option count together with that
row's column minimum (NaN entries ignored) as the value, no other row's
minimum exceeds the returned value, and on the 2x2 matrix
`[[-10, 5], [0, 3]]` it returns `(1, 0)`. -/
theorem c3_pick_safest_maximizes_row_minimum (l : List (Option ℚ)) (n1 n2 : Nat)
    (h1 : 0 < n1) :
    ((pick_safest l n1 n2).1 < n1 ∧
      (pick_safest l n1 n2).2 =
        ((spec_row_min l ((pick_safest l n1 n2).1 * n2) n2 : WithTop ℚ) :
          WithBot (WithTop ℚ)) ∧
      ∀ i, i < n1 →
        ((spec_row_min l (i * n2) n2 : WithTop ℚ) : WithBot (WithTop ℚ)) ≤
          (pick_safest l n1 n2).2) ∧
    pick_safest [some (-10), some 5, some 0, some 3] 2 2 =
      (1, ((0 : ℚ) : WithBot (WithTop ℚ))) := by
  obtain ⟨hex, hall⟩ := pick_safest_aux l n2 n1
  obtain ⟨i, hi, hfold⟩ := hex h1
  refine ⟨⟨?_, ?_, ?_⟩, by decide⟩
  · rw [hfold]
    exact hi
  · rw [hfold, ← row_worst_case_eq_spec_row_min]
  · intro j hj
    rw [← row_worst_case_eq_spec_row_min]
    exact hall j hj

/-- Witness for C3 at the spec's 2x2 score matrix. -/
theorem c3_pick_safest_witness :
    ((pick_safest [some (-10), some 5, some 0, some 3] 2 2).1 < 2 ∧
      (pick_safest [some (-10), some 5, some 0, some 3] 2 2).2 =
        ((spec_row_min [some (-10), some 5, some 0, some 3]
            ((pick_safest [some (-10), some 5, some 0, some 3] 2 2).1 * 2) 2 : WithTop ℚ) :
          WithBot (WithTop ℚ)) ∧
      ∀ i, i < 2 →
        ((spec_row_min [some (-10), some 5, some 0, some 3] (i * 2) 2 : WithTop ℚ) :
          WithBot (WithTop ℚ)) ≤
          (pick_safest [some (-10), some 5, some 0, some 3] 2 2).2) ∧
    pick_safest [some (-10), some 5, some 0, some 3] 2 2 =
      (1, ((0 : ℚ) : WithBot (WithTop ℚ))) :=
  c3_pick_safest_maximizes_row_minimum [some (-10), some 5, some 0, some 3] 2 2 (by decide)

/-- C4: the move-pair driver is an unimplemented stub: its entire body in
the source is a `panic!`, modelled here as `none`, so it performs none of
the claimed ordering, per-branch move generation or end-of-turn work. -/
theorem c4_move_pair_driver_unimplemented : generate_instructions_from_move_pair = none :=
  rfl

/-- C5: the Taunt gate of `cannot_use_move` is inverted relative to the
claim: a Taunted attacker is blocked when using a damaging (Physical)
move and allowed when using a non-damaging (Status) move. -/
theorem c5_taunt_blocks_damaging_moves :
    cannot_use_move tauntState defaultChoice SideReference.SideOne = true ∧
    cannot_use_move tauntState statusCategoryChoice SideReference.SideOne = false :=
  ⟨by decide, by decide⟩

/-- C6: with two Toxic Spikes layers already on the affected side, the
side-condition stage still emits a `ChangeSideCondition` delta (the source
caps Toxic Spikes at 3 layers, not 2), and applying that delta drives the
layer count to 3, outside the claimed range `0..2`. -/
theorem c6_toxic_spikes_cap_exceeded :
    (generate_instructions_from_side_conditions toxicSpikesAtTwoState toxicSpikesChoice
        SideReference.SideOne StateInstructions.default).2.instruction_list =
      [Instruction.ChangeSideCondition SideReference.SideTwo
        PokemonSideCondition.ToxicSpikes 1] ∧
    ((toxicSpikesAtTwoState.apply_instructions
        [Instruction.ChangeSideCondition SideReference.SideTwo
          PokemonSideCondition.ToxicSpikes 1]).get_side
        SideReference.SideTwo).side_conditions.toxic_spikes = 3 :=
  ⟨by decide, by decide⟩

/-- C8: `iterative_deepen_expectiminimax` never reads the caller's
`max_time` budget (its result is the same for any two budgets), and the
deepening loop instead breaks on the hardcoded 300 ms literal: with every
depth reported as taking 301 ms and an effectively unlimited budget of
1000000, deepening stops after depth 2 of the requested 5. -/
theorem c8_max_time_budget_ignored :
    (∀ (search : Int → List Nat → List Nat → List (Option ℚ)) (elapsed_ms : Int → ℚ)
        (depth : Int) (s1 s2 : List Nat) (t₁ t₂ : ℚ),
      iterative_deepen_expectiminimax search elapsed_ms depth s1 s2 t₁ =
        iterative_deepen_expectiminimax search elapsed_ms depth s1 s2 t₂) ∧
    iterative_deepen_expectiminimax
        (fun (i : Int) (_ _ : List Nat) => List.replicate i.toNat none)
        (fun _ => 301) 5 [0] [0] 1000000 = ([0], [0], [none, none]) := by
  refine ⟨fun search elapsed_ms depth s1 s2 t₁ t₂ => rfl, ?_⟩
  simp [iterative_deepen_expectiminimax, iter_deepen_loop,
    re_order_moves_for_iterative_deepening, row_worst_case]
  norm_num

/-! The evaluator's symmetry and totality. -/

theorem evaluate_eq (t : State) :
    evaluate t = (side_pokemon_sum t.side_one.pokemon).bind (fun s1 =>
      (side_pokemon_sum t.side_two.pokemon).bind (fun s2 =>
        some (s1.2 - s2.2 + side_conditions_score t.side_one s1.1 -
          side_conditions_score t.side_two s2.1))) := rfl

theorem bind_swap_neg (o1 o2 : Option (ℚ × ℚ)) (c1 c2 : Side) :
    (o2.bind fun s1 => o1.bind fun s2 =>
        some (s1.2 - s2.2 + side_conditions_score c2 s1.1 - side_conditions_score c1 s2.1)) =
      ((o1.bind fun s1 => o2.bind fun s2 =>
        some (s1.2 - s2.2 + side_conditions_score c1 s1.1 -
          side_conditions_score c2 s2.1)).map fun q => -q) := by
  cases o1 <;> cases o2 <;> simp
  ring

/-- C9: the evaluator is antisymmetric in the two sides: exchanging
`side_one` and `side_two` (creatures and side conditions) negates the
score `evaluate` returns, because every per-creature and per-side term is
added for side one and subtracted for side two with identical weights. -/
theorem c9_evaluate_antisymmetric (s : State) :
    evaluate (swapSides s) = (evaluate s).map (fun q => -q) := by
  rw [evaluate_eq s, evaluate_eq (swapSides s)]
  have hs1 : (swapSides s).side_one = s.side_two := rfl
  have hs2 : (swapSides s).side_two = s.side_one := rfl
  rw [hs1, hs2]
  exact bind_swap_neg (side_pokemon_sum s.side_one.pokemon)
    (side_pokemon_sum s.side_two.pokemon) s.side_one s.side_two

theorem get_boost_multiplier_isSome (b : Int) (h1 : -6 ≤ b) (h2 : b ≤ 6) :
    (get_boost_multiplier b).isSome = true := by
  interval_cases b <;> decide

theorem evaluate_pokemon_isSome (p : Pokemon) (h : boostsInRange p) :
    (evaluate_pokemon p).isSome = true := by
  obtain ⟨⟨ha1, ha2⟩, ⟨hd1, hd2⟩, ⟨hsa1, hsa2⟩, ⟨hsd1, hsd2⟩, ⟨hsp1, hsp2⟩, _, _⟩ := h
  obtain ⟨ab, hab⟩ := Option.isSome_iff_exists.mp (get_boost_multiplier_isSome _ ha1 ha2)
  obtain ⟨db, hdb⟩ := Option.isSome_iff_exists.mp (get_boost_multiplier_isSome _ hd1 hd2)
  obtain ⟨sab, hsab⟩ := Option.isSome_iff_exists.mp (get_boost_multiplier_isSome _ hsa1 hsa2)
  obtain ⟨sdb, hsdb⟩ := Option.isSome_iff_exists.mp (get_boost_multiplier_isSome _ hsd1 hsd2)
  obtain ⟨spb, hspb⟩ := Option.isSome_iff_exists.mp (get_boost_multiplier_isSome _ hsp1 hsp2)
  unfold evaluate_pokemon
  rw [hab, hdb, hsab, hsdb, hspb]
  rfl

theorem side_pokemon_sum_isSome_aux : ∀ (l : List Pokemon) (acc : ℚ × ℚ),
    (∀ p ∈ l, 0 < p.hp → boostsInRange p) →
    (l.foldlM (fun acc pkmn =>
      if pkmn.hp > 0 then (evaluate_pokemon pkmn).map (fun v => (acc.1 + 1, acc.2 + v))
      else pure acc) acc).isSome = true := by
  intro l
  induction l with
  | nil => intro acc h; rfl
  | cons p l ih =>
    intro acc h
    rw [List.foldlM_cons]
    by_cases hp : p.hp > 0
    · rw [if_pos hp]
      obtain ⟨v, hv⟩ := Option.isSome_iff_exists.mp
        (evaluate_pokemon_isSome p (h p (by simp) hp))
      rw [hv]
      exact ih _ (fun q hq hq2 => h q (by simp [hq]) hq2)
    · rw [if_neg hp]
      exact ih _ (fun q hq hq2 => h q (by simp [hq]) hq2)

theorem side_pokemon_sum_isSome (l : List Pokemon)
    (h : ∀ p ∈ l, 0 < p.hp → boostsInRange p) :
    (side_pokemon_sum l).isSome = true :=
  side_pokemon_sum_isSome_aux l (0, 0) h

/-- C10: when every living creature's stat-stage boosts lie in `[-6, +6]`,
`evaluate` is total (the panic branch of `get_boost_multiplier`, modelled
as `none`, is unreachable); and for a state whose active creature carries
an attack boost of `+7`, evaluating panics instead of returning a score. -/
theorem c10_boost_range_panic_safety :
    (∀ s : State, livingBoostsInRange s → (evaluate s).isSome = true) ∧
    evaluate badBoostState = none := by
  refine ⟨fun s h => ?_, by decide⟩
  have h1 := side_pokemon_sum_isSome s.side_one.pokemon
    (fun p hp => h p (List.mem_append_left _ hp))
  have h2 := side_pokemon_sum_isSome s.side_two.pokemon
    (fun p hp => h p (List.mem_append_right _ hp))
  obtain ⟨a, ha⟩ := Option.isSome_iff_exists.mp h1
  obtain ⟨b, hb⟩ := Option.isSome_iff_exists.mp h2
  rw [evaluate_eq, ha, hb]
  rfl

end PokeEngine
